import Mathlib

/-!
# Verification of the reservation + SMS-matching engine

A shallow embedding of the core of `src/main.py` (a Telegram bot renting
short-lived phone numbers for OTP reception) together with proofs about it.

Conventions of the embedding:
* machine time (`datetime.now()`) is an explicit `Nat` parameter `now`;
* money (`Decimal`/`float` in the source) is `ℚ`;
* the relational store is a record of lists kept in insertion order
  (auto-increment primary keys are monotone in list order);
* SQLAlchemy `query(...).first()` is `List.find?` over that order,
  `query(...).all()` is `List.filter`;
* Python truthiness of optional strings / numbers is modelled explicitly
  (`strFalsy`, and `priceOf` for the `price_override or default_price` idiom);
* characters are treated over the ASCII fragment: Python `\d`/`isdigit` is
  `Char.isDigit`, `\w` is letters, digits and underscore, `\s` is the six
  ASCII whitespace characters.

The ORM model declarations (`models.py`) are not part of `src/`; the entity
structures below are modelled from the spec, §3 DATA MODEL.  All operations
are translated from `src/main.py`.
-/

namespace PhoneBot

/-- Modelled from the spec: `Number.status ∈ {AVAILABLE, RESERVED, USED, DELETED}`
(the source stores these as strings on the `numbers` table). -/
inductive NumberStatus where
  | AVAILABLE
  | RESERVED
  | USED
  | DELETED
deriving DecidableEq, Repr

/-- Modelled from the spec: `Reservation.status ∈ {WAITING_CODE, COMPLETED,
EXPIRED, CANCELED}` (enum `ReservationStatus` of the missing `models.py`). -/
inductive ReservationStatus where
  | WAITING_CODE
  | COMPLETED
  | EXPIRED
  | CANCELED
deriving DecidableEq, Repr

/-- Modelled from the spec: `Transaction.kind ∈ {ADD, DEDUCT, PURCHASE, REWARD}`. -/
inductive TransactionType where
  | ADD
  | DEDUCT
  | PURCHASE
  | REWARD
deriving DecidableEq, Repr

/-- Modelled from the spec: `ProviderMessage.status ∈ {PENDING, PROCESSED,
REJECTED, ORPHAN}`. -/
inductive MessageStatus where
  | PENDING
  | PROCESSED
  | REJECTED
  | ORPHAN
deriving DecidableEq, Repr

/-- Modelled from the spec: `User — {id, externalId, balance(decimal), ...}`.
Only the fields the core operations read are carried. -/
structure User where
  id : Nat
  telegramId : String
  balance : ℚ
deriving DecidableEq, Repr

/-- Modelled from the spec: `Service — {id, name, emoji, description?,
defaultPrice(decimal), active}`. -/
structure Service where
  id : Nat
  name : String
  defaultPrice : ℚ
  active : Bool
deriving DecidableEq, Repr

/-- Modelled from the spec: `Number — {id, phoneNumber(E.164), serviceId,
countryCode, status, priceOverride?, reservedByUserId?, reservedAt?,
expiresAt?, codeReceivedAt?, usageCount}`. -/
structure Number where
  id : Nat
  phoneNumber : String
  serviceId : Nat
  countryCode : String
  status : NumberStatus
  priceOverride : Option ℚ
  reservedByUserId : Option Nat
  reservedAt : Option Nat
  expiresAt : Option Nat
  codeReceivedAt : Option Nat
  usageCount : Nat
deriving DecidableEq, Repr

/-- Modelled from the spec: `Reservation — {id, userId, serviceId, numberId,
status, createdAt, expiredAt, completedAt?, codeValue?}`. -/
structure Reservation where
  id : Nat
  userId : Nat
  serviceId : Nat
  numberId : Nat
  status : ReservationStatus
  createdAt : Nat
  expiredAt : Nat
  completedAt : Option Nat
  codeValue : Option String
deriving DecidableEq, Repr

/-- Modelled from the spec: `Transaction — {id, userId, kind, amount(decimal),
reason, createdAt}` (`kind` is called `type` in the source). -/
structure Transaction where
  id : Nat
  userId : Nat
  type : TransactionType
  amount : ℚ
  reason : String
  createdAt : Nat
deriving DecidableEq, Repr

/-- Modelled from the spec: `ProviderMessage — {id, serviceId, groupChatId,
senderId, text, receivedAt, status, rawPayload?, processedAt?}`; the audit-only
`rawPayload` blob is not carried. -/
structure ProviderMessage where
  id : Nat
  serviceId : Nat
  groupChatId : String
  senderId : String
  messageText : String
  receivedAt : Nat
  status : MessageStatus
  processedAt : Option Nat
deriving DecidableEq, Repr

/-- Modelled from the spec: `BlockedMessage — {id, serviceId, groupChatId,
senderId, text, reason, createdAt}`. -/
structure BlockedMessage where
  id : Nat
  serviceId : Nat
  groupChatId : String
  senderId : String
  messageText : String
  reason : String
  createdAt : Nat
deriving DecidableEq, Repr

/-- The service-regex pattern language actually used by the source: every
code-extraction regex reaching `re.search`/`re.findall` through the correlator
is of the form `\b\d{lo,hi}\b` (the group default is `r'\b\d{4,6}\b'`). -/
inductive RegexPat where
  | boundedDigits (lo hi : Nat)
deriving DecidableEq, Repr

/-- Modelled from the spec: `ServiceGroup — {serviceId, groupChatId,
regexPattern, active}`. -/
structure ServiceGroup where
  serviceId : Nat
  groupChatId : String
  regexPattern : Option RegexPat
  active : Bool
deriving DecidableEq, Repr

/-- The relational store (spec §3), lists in insertion order. -/
structure DB where
  users : List User
  services : List Service
  numbers : List Number
  reservations : List Reservation
  transactions : List Transaction
  providerMessages : List ProviderMessage
  blockedMessages : List BlockedMessage
  serviceGroups : List ServiceGroup
deriving DecidableEq, Repr

/-! ## Phone-number normalizer and country detector (`main.py` 206–239, 475–678) -/

/-- `normalize_phone_number` (main.py:206).  Steps, in source order: the
empty-input guard; `re.sub(r'[^\d\+]', '', phone)`; collapsing multiple `+`;
ensuring a leading `+`; the `isdigit`/length-≥-7 test (Python `''.isdigit()`
is `False`, hence the nonemptiness conjunct); stripping one `00` dialing
prefix from the digits. -/
def normalizePhoneNumber (phone : String) : String :=
  if phone = "" then ""
  else
    let kept : List Char := phone.toList.filter (fun c => c.isDigit || c == '+')
    let collapsed : List Char :=
      if 1 < kept.count '+' then '+' :: kept.filter (fun c => c ≠ '+') else kept
    let plussed : List Char :=
      if collapsed.head? = some '+' then collapsed else '+' :: collapsed
    let digitsOnly : List Char :=
      if plussed.head? = some '+' then plussed.drop 1 else plussed
    if ¬(digitsOnly ≠ [] ∧ digitsOnly.all Char.isDigit) ∨ digitsOnly.length < 7 then
      ""
    else
      if digitsOnly.take 2 = ['0', '0'] then
        String.mk ('+' :: digitsOnly.drop 2)
      else
        String.mk plussed

/-- `extract_last_digits` (main.py:235): keep only digits and return the final
`digits` of them (all of them when fewer are available). -/
def extractLastDigits (phoneNumber : String) (digits : Nat := 3) : String :=
  let cleanNumber := phoneNumber.toList.filter Char.isDigit
  if digits ≤ cleanNumber.length then
    String.mk (cleanNumber.drop (cleanNumber.length - digits))
  else
    String.mk cleanNumber

/-- The dialing-prefix table of `detect_country_code` (main.py:480); the source
dict maps each key to itself, so only the key set matters. -/
def countryCodeTable : List String :=
  ["+1", "+7", "+20", "+33", "+34", "+39", "+44", "+49", "+52", "+55",
   "+60", "+61", "+62", "+63", "+64", "+65", "+66", "+81", "+82", "+84",
   "+86", "+90", "+91", "+92", "+93", "+94", "+95", "+98",
   "+212", "+213", "+216", "+218", "+220", "+221", "+222", "+223", "+224",
   "+225", "+226", "+227", "+228", "+229", "+230", "+231", "+232", "+233",
   "+234", "+235", "+236", "+237", "+238", "+239", "+240", "+241", "+242",
   "+243", "+244", "+245", "+246", "+248", "+249", "+250", "+251", "+252",
   "+253", "+254", "+255", "+256", "+257", "+258", "+260", "+261", "+262",
   "+263", "+264", "+265", "+266", "+267", "+268", "+269", "+290", "+291",
   "+297", "+298", "+299", "+350", "+351", "+352", "+353", "+354", "+355",
   "+356", "+357", "+358", "+359", "+370", "+371", "+372", "+373", "+374",
   "+375", "+376", "+377", "+378", "+380", "+381", "+382", "+383", "+385",
   "+386", "+387", "+389", "+420", "+421", "+423", "+500", "+501", "+502",
   "+503", "+504", "+505", "+506", "+507", "+508", "+509", "+590", "+591",
   "+592", "+593", "+594", "+595", "+596", "+597", "+598", "+599", "+670",
   "+672", "+673", "+674", "+675", "+676", "+677", "+678", "+679", "+680",
   "+681", "+682", "+683", "+684", "+685", "+686", "+687", "+688", "+689",
   "+690", "+691", "+692", "+850", "+852", "+853", "+855", "+856", "+880",
   "+886", "+960", "+961", "+962", "+963", "+964", "+965", "+966", "+967",
   "+968", "+970", "+971", "+972", "+973", "+974", "+975", "+976", "+977",
   "+992", "+993", "+994", "+995", "+996", "+998"]

/-- `detect_country_code` (main.py:475): normalize, then check exact table
matches for prefix lengths 4, 3, 2 (digits after the `+`), defaulting to
`+1`. -/
def detectCountryCode (phone : String) : String :=
  let ph := normalizePhoneNumber phone
  let tryLen : Nat → Option String := fun length =>
    if length + 1 ≤ ph.length then
      let pre := String.mk (ph.toList.take (length + 1))
      if pre ∈ countryCodeTable then some pre else none
    else none
  match tryLen 4 with
  | some c => c
  | none =>
    match tryLen 3 with
    | some c => c
    | none =>
      match tryLen 2 with
      | some c => c
      | none => "+1"

/-! ## Character classes and regex scanners

The correlator uses a fixed, small repertoire of regular expressions; each is
rendered below as a direct scanner over `List Char` with Python `re`
backtracking semantics worked out for that concrete pattern (ASCII fragment).
-/

/-- Python `\s` (ASCII fragment): the six whitespace characters. -/
def pySpace (c : Char) : Bool :=
  c == ' ' || c == '\t' || c == '\n' || c == '\r' || c == '\x0b' || c == '\x0c'

/-- Python `\w` (ASCII fragment): letters, digits and underscore. -/
def isWordChar (c : Char) : Bool :=
  c.isAlpha || c.isDigit || c == '_'

/-- Worker for `runsP`, structurally recursive on a fuel argument so that the
kernel can evaluate it; a fuel of `l.length` never runs out, since each
recursive call drops at least one character (`dropWhile` never lengthens). -/
def runsGo (p : Char → Bool) : Nat → List Char → List (List Char)
  | 0, _ => []
  | _ + 1, [] => []
  | fuel + 1, c :: rest =>
    if p c then (c :: rest.takeWhile p) :: runsGo p fuel (rest.dropWhile p)
    else runsGo p fuel rest

/-- Maximal runs of characters satisfying `p`, in order of occurrence. -/
def runsP (p : Char → Bool) (l : List Char) : List (List Char) :=
  runsGo p l.length l

/-- `re.findall(r'\b\d{lo,hi}\b', text)`: since `\b\d{lo,hi}\b` can only match
a maximal word-character run that consists entirely of digits and whose length
lies in `[lo, hi]` (a digit adjacent to a word character is never at a word
boundary, and the greedy quantifier cannot stop inside a digit run because the
closing `\b` would fail), `findall` returns exactly those runs in order. -/
def findallBoundedDigits (lo hi : Nat) (l : List Char) : List (List Char) :=
  (runsP isWordChar l).filter
    (fun r => r.all Char.isDigit && lo ≤ r.length && r.length ≤ hi)

/-- `re.search(r'\b\d{lo,hi}\b', text)` — the leftmost such run. -/
def searchBoundedDigits (lo hi : Nat) (l : List Char) : Option (List Char) :=
  (findallBoundedDigits lo hi l).head?

/-- `re.search` for the pattern language `RegexPat`. -/
def reSearchPat (pat : RegexPat) (l : List Char) : Option (List Char) :=
  match pat with
  | .boundedDigits lo hi => searchBoundedDigits lo hi l

/-- `re.findall(r'\d{n,}', text)`: the maximal digit runs of length ≥ `n`
(a run of length ≥ `n` is consumed whole by the greedy quantifier). -/
def findallDigitRunsAtLeast (n : Nat) (l : List Char) : List (List Char) :=
  (runsP Char.isDigit l).filter (fun r => n ≤ r.length)

/-- Case-insensitive match of the literal `lit` (given in lower case) at the
head of `l`. -/
def matchLitCI : List Char → List Char → Option (List Char)
  | [], rest => some rest
  | _ :: _, [] => none
  | a :: as, c :: rest => if c.toLower == a then matchLitCI as rest else none

/-- `re.search(r'to:\s*(\+?\d+)', text, re.IGNORECASE)` (main.py:983),
returning group 1.  At each candidate position: the literal `to:`, then
greedily skipped whitespace, an optional `+`, and at least one digit; if no
digit follows, the engine abandons this position and resumes the scan one
character later. -/
def searchToNumber (l : List Char) : Option (List Char) :=
  match l with
  | [] => none
  | _ :: rest =>
    match matchLitCI ['t', 'o', ':'] l with
    | some after =>
      let af := after.dropWhile pySpace
      match af with
      | '+' :: more =>
        let ds := more.takeWhile Char.isDigit
        if ds ≠ [] then some ('+' :: ds) else searchToNumber rest
      | _ =>
        let ds := af.takeWhile Char.isDigit
        if ds ≠ [] then some ds else searchToNumber rest
    | none => searchToNumber rest

/-- `re.search(r'code:\s*(\d+)', text, re.IGNORECASE)` (main.py:994),
returning group 1. -/
def searchCodeDigits (l : List Char) : Option (List Char) :=
  match l with
  | [] => none
  | _ :: rest =>
    match matchLitCI ['c', 'o', 'd', 'e', ':'] l with
    | some after =>
      let ds := (after.dropWhile pySpace).takeWhile Char.isDigit
      if ds ≠ [] then some ds else searchCodeDigits rest
    | none => searchCodeDigits rest

/-! ### Masked-number patterns (main.py:241–295)

The five patterns of `extract_last_three_digits_from_masked_number` plus its
two fallbacks.  The source file stores the bullet glyph as the three
characters `â`, `€`, `¢` (a mojibake of `•` that the running program matches
literally), so the character classes below contain exactly those characters.
Each scanner returns the list of captured groups in match order; the wrapper
takes the last.  The scanners carry a fuel argument (instantiated with the
text length, which bounds the number of scan steps since every step consumes
at least one character). -/

/-- The class `[\*â€¢]` of patterns 1 and 4. -/
def maskStar (c : Char) : Bool := c == '*' || c == 'â' || c == '€' || c == '¢'

/-- The class `[â€¢]` of pattern 3. -/
def maskBullet (c : Char) : Bool := c == 'â' || c == '€' || c == '¢'

/-- The class `[â€¢\*\\]` of the first fallback. -/
def maskAny (c : Char) : Bool := maskBullet c || c == '*' || c == '\\'

/-- Tail of pattern 1 after the literal `to:`:
`\s*\+?[\d\s]*[\*â€¢]{1,}(\d{2,3})(?:\s|$|[^\d])`.  All character classes
involved are pairwise disjoint, so the greedy parse is deterministic; the
capture succeeds exactly on a digit run of length 2 or 3 (a longer run makes
the trailing alternation fail on every backtrack).  Returns the group and the
remainder after the match (the one-character trailer is consumed when
present). -/
def maskedTailP1 (after : List Char) : Option (List Char × List Char) :=
  let a1 : List Char := after.dropWhile pySpace
  let a2 : List Char := match a1 with
    | '+' :: more => more
    | _ => a1
  let a3 : List Char := a2.dropWhile (fun c => c.isDigit || pySpace c)
  let ms := a3.takeWhile maskStar
  if ms = ([] : List Char) then none
  else
    let a4 := a3.dropWhile maskStar
    let ds := a4.takeWhile Char.isDigit
    if ds.length = 2 ∨ ds.length = 3 then some (ds, (a4.drop ds.length).drop 1)
    else none

/-- Tail of pattern 2 after the literal `to:`: `\s*(\d{2,3})(?:\s|$)`. -/
def maskedTailP2 (after : List Char) : Option (List Char × List Char) :=
  let a1 := after.dropWhile pySpace
  let ds := a1.takeWhile Char.isDigit
  if ds.length = 2 ∨ ds.length = 3 then
    match a1.drop ds.length with
    | [] => some (ds, [])
    | c :: rest => if pySpace c then some (ds, rest) else none
  else none

/-- Pattern 3 at a bullet-class position:
`[â€¢]{3,}\\?\*{0,}(\d{2,3})(?:\s|$|[^\d])`. -/
def maskedTailP3 (l : List Char) : Option (List Char × List Char) :=
  let ms := l.takeWhile maskBullet
  if 3 ≤ ms.length then
    let a1 : List Char := l.dropWhile maskBullet
    let a2 : List Char := match a1 with
      | '\\' :: more => more
      | _ => a1
    let a3 : List Char := a2.dropWhile (fun c => c == '*')
    let ds := a3.takeWhile Char.isDigit
    if ds.length = 2 ∨ ds.length = 3 then some (ds, (a3.drop ds.length).drop 1)
    else none
  else none

/-- Pattern 4 at a star-class position: `[\*â€¢]{2,}(\d{2,3})(?:\s|$|[^\d])`. -/
def maskedTailP4 (l : List Char) : Option (List Char × List Char) :=
  let ms := l.takeWhile maskStar
  if 2 ≤ ms.length then
    let a1 := l.dropWhile maskStar
    let ds := a1.takeWhile Char.isDigit
    if ds.length = 2 ∨ ds.length = 3 then some (ds, (a1.drop ds.length).drop 1)
    else none
  else none

/-- `re.findall` driver for patterns 1 and 2 (both anchored on `to:`,
case-insensitively). -/
def findallToAnchored (tail : List Char → Option (List Char × List Char)) :
    Nat → List Char → List (List Char)
  | 0, _ => []
  | _ + 1, [] => []
  | fuel + 1, c :: rest =>
    match matchLitCI ['t', 'o', ':'] (c :: rest) with
    | some after =>
      match tail after with
      | some (g, rest2) => g :: findallToAnchored tail fuel rest2
      | none => findallToAnchored tail fuel rest
    | none => findallToAnchored tail fuel rest

/-- `re.findall` driver for patterns 3 and 4 (anchored on a mask class,
tested where a class character occurs). -/
def findallMaskAnchored (cls : Char → Bool)
    (tail : List Char → Option (List Char × List Char)) :
    Nat → List Char → List (List Char)
  | 0, _ => []
  | _ + 1, [] => []
  | fuel + 1, c :: rest =>
    if cls c then
      match tail (c :: rest) with
      | some (g, rest2) => g :: findallMaskAnchored cls tail fuel rest2
      | none => findallMaskAnchored cls tail fuel rest
    else findallMaskAnchored cls tail fuel rest

/-- Pattern 5, `re.findall(r'\b(\d{2,3})(?:\s|$|[^\d])', text)`: a maximal
digit run of length 2 or 3 starting at a word boundary; `prevWord` tracks
whether the preceding character is a word character. -/
def findallP5 : Nat → Bool → List Char → List (List Char)
  | 0, _, _ => []
  | _ + 1, _, [] => []
  | fuel + 1, prevWord, c :: rest =>
    if ¬prevWord && c.isDigit then
      let ds := (c :: rest).takeWhile Char.isDigit
      if ds.length = 2 ∨ ds.length = 3 then
        match (c :: rest).drop ds.length with
        | [] => [ds]
        | f :: rest2 => ds :: findallP5 fuel (isWordChar f) rest2
      else findallP5 fuel (isWordChar c) rest
    else findallP5 fuel (isWordChar c) rest

/-- First fallback, `re.findall(r'[â€¢\*\\]+([0-9]{2,3})', message_text)`:
after a run of mask characters, the greedy quantifier captures the first
`min(3, run length)` digits of the following digit run (no trailing
context). -/
def findallMaskedFallback : Nat → List Char → List (List Char)
  | 0, _ => []
  | _ + 1, [] => []
  | fuel + 1, c :: rest =>
    if maskAny c then
      let a1 := (c :: rest).dropWhile maskAny
      let ds := a1.takeWhile Char.isDigit
      if 2 ≤ ds.length then
        let g := ds.take 3
        g :: findallMaskedFallback fuel (a1.drop g.length)
      else findallMaskedFallback fuel rest
    else findallMaskedFallback fuel rest

/-- Worker for `chunkDigits23`, structurally recursive on a fuel argument so
that the kernel can evaluate it; a fuel of `r.length` never runs out, since
each recursive call drops three characters. -/
def chunkGo : Nat → List Char → List (List Char)
  | 0, _ => []
  | fuel + 1, r =>
    if 3 ≤ r.length then r.take 3 :: chunkGo fuel (r.drop 3)
    else if 2 ≤ r.length then [r]
    else []

/-- `re.findall(r'\d{2,3}', text)` within one maximal digit run: greedy
three-character chunks, with a final two-character chunk when exactly two
remain. -/
def chunkDigits23 (r : List Char) : List (List Char) :=
  chunkGo r.length r

/-- `re.findall(r'\d{2,3}', text)` over the whole text. -/
def findallDigits23 (l : List Char) : List (List Char) :=
  ((runsP Char.isDigit l).map chunkDigits23).flatten

/-- `extract_last_three_digits_from_masked_number` (main.py:241): try the
five patterns in priority order taking the last match of the first pattern
that matches at all (the subsequent `len ≥ 2 ∧ isdigit` test always holds for
these captures, each being a digit run of length 2 or 3); then the two
fallbacks. -/
def extractLastThreeDigitsFromMaskedNumber (messageText : String) :
    Option String :=
  let l := messageText.toList
  let fuel := l.length + 1
  let results : List (List (List Char)) :=
    [findallToAnchored maskedTailP1 fuel l,
     findallToAnchored maskedTailP2 fuel l,
     findallMaskAnchored maskBullet maskedTailP3 fuel l,
     findallMaskAnchored maskStar maskedTailP4 fuel l,
     findallP5 fuel false l]
  match results.findSome? (fun ms => ms.getLast?) with
  | some g => some (String.mk g)
  | none =>
    match (findallMaskedFallback fuel l).getLast? with
    | some g => some (String.mk g)
    | none =>
      match (findallDigits23 l).getLast? with
      | some g => some (String.mk g)
      | none => none

/-! ### Full extraction (main.py:979) -/

/-- Python truthiness of an optional string: `None` and `''` are falsy. -/
def strFalsy (s : Option String) : Bool :=
  match s with
  | none => true
  | some t => t == ""

/-- `extract_number_and_code` (main.py:979): the `to:`-anchored phone (run
through `normalize_phone_number`, with a `+` prepended first when absent) and
the `code:`-anchored digits, falling back to the service regex for the
code. -/
def extractNumberAndCode (messageText : String) (pat : RegexPat) :
    Option String × Option String :=
  let l := messageText.toList
  let number : Option String :=
    match searchToNumber l with
    | some raw =>
      let raw2 := if raw.head? = some '+' then raw else '+' :: raw
      some (normalizePhoneNumber (String.mk raw2))
    | none => none
  let code : Option String :=
    match searchCodeDigits l with
    | some ds => some (String.mk ds)
    | none => (reSearchPat pat l).map String.mk
  (number, code)

/-! ## Store operations -/

/-- A fresh auto-increment id: one more than the largest id in use. -/
def nextIdOf (ids : List Nat) : Nat := ids.foldr max 0 + 1

def DB.nextReservationId (db : DB) : Nat := nextIdOf (db.reservations.map (·.id))

def DB.nextTransactionId (db : DB) : Nat := nextIdOf (db.transactions.map (·.id))

def DB.nextProviderMessageId (db : DB) : Nat :=
  nextIdOf (db.providerMessages.map (·.id))

def DB.nextBlockedMessageId (db : DB) : Nat :=
  nextIdOf (db.blockedMessages.map (·.id))

/-- `float(number.price_override or service.default_price)` (main.py:1575,
3174).  Python `or` tests truthiness, so an override of `0` falls back to the
service default. -/
def priceOf (number : Number) (service : Service) : ℚ :=
  match number.priceOverride with
  | some p => if p = 0 then service.defaultPrice else p
  | none => service.defaultPrice

/-- The distinct-user count of main.py:1601: users holding a COMPLETED
reservation against the number (`distinct().count()` over `user_id`). -/
def distinctCompletedUsers (reservations : List Reservation) (numberId : Nat) :
    Nat :=
  ((reservations.filter
      (fun r => r.numberId == numberId &&
        r.status == ReservationStatus.COMPLETED)).map (·.userId)).dedup.length

/-- The `used_number_ids` subquery of `reserve_number` (main.py:1502): ids of
Numbers against which this user has a COMPLETED reservation. -/
def usedNumberIdsOf (db : DB) (userId : Nat) : List Nat :=
  (db.reservations.filter
    (fun r => r.userId == userId &&
      r.status == ReservationStatus.COMPLETED)).map (·.numberId)

/-- The row filter of the `reserve_number` number query (main.py:1508):
matching service and country, AVAILABLE, and not previously used by this
user. -/
def reserveEligible (db : DB) (userId serviceId : Nat) (countryCode : String)
    (n : Number) : Bool :=
  n.serviceId == serviceId && n.countryCode == countryCode &&
  n.status == NumberStatus.AVAILABLE &&
  !((usedNumberIdsOf db userId).contains n.id)

/-- `reserve_number` (main.py:1497).  `RESERVATION_TIMEOUT_MIN` comes from the
missing `config.py` and is passed as the `timeoutMin` parameter.  The number
query carries no `order_by`, so `first()` returns the earliest row in table
(insertion) order. -/
def reserveNumber (db : DB) (userId serviceId : Nat) (countryCode : String)
    (timeoutMin now : Nat) : Option Reservation × DB :=
  match db.numbers.find? (reserveEligible db userId serviceId countryCode) with
  | none => (none, db)
  | some availableNumber =>
    let expiresAt := now + timeoutMin
    let reservation : Reservation :=
      { id := db.nextReservationId, userId, serviceId,
        numberId := availableNumber.id, status := .WAITING_CODE,
        createdAt := now, expiredAt := expiresAt, completedAt := none,
        codeValue := none }
    let numbers := db.numbers.map (fun n =>
      if n.id = availableNumber.id then
        { n with status := .RESERVED, reservedByUserId := some userId,
                 reservedAt := some now, expiresAt := some expiresAt }
      else n)
    (some reservation,
     { db with numbers, reservations := db.reservations ++ [reservation] })

/-- `complete_reservation_atomic` (main.py:1542).  The distinct-user count is
taken after the reservation update (the session autoflushes the pending
COMPLETED status before the count query runs), and `USED` is overwritten with
`DELETED` when it reaches 3. -/
def completeReservationAtomic (db : DB) (reservationId : Nat) (code : String)
    (now : Nat) : Bool × DB :=
  match db.reservations.find? (fun r => r.id == reservationId) with
  | none => (false, db)
  | some reservation =>
    if reservation.status ≠ .WAITING_CODE then (false, db)
    else
      match db.users.find? (fun u => u.id == reservation.userId),
            db.services.find? (fun s => s.id == reservation.serviceId),
            db.numbers.find? (fun n => n.id == reservation.numberId) with
      | some user, some service, some number =>
        let price := priceOf number service
        if user.balance < price then
          (false,
           { db with reservations := db.reservations.map (fun r =>
               if r.id = reservation.id then { r with status := .EXPIRED }
               else r) })
        else
          let reservations := db.reservations.map (fun r =>
            if r.id = reservation.id then
              { r with status := .COMPLETED, codeValue := some code,
                       completedAt := some now }
            else r)
          let uniqueUsersCount := distinctCompletedUsers reservations number.id
          let newStatus : NumberStatus :=
            if 3 ≤ uniqueUsersCount then .DELETED else .USED
          let numbers := db.numbers.map (fun n =>
            if n.id = number.id then
              { n with status := newStatus, codeReceivedAt := some now,
                       usageCount := n.usageCount + 1 }
            else n)
          let users := db.users.map (fun u =>
            if u.id = user.id then { u with balance := u.balance - price }
            else u)
          let tx : Transaction :=
            { id := db.nextTransactionId, userId := user.id, type := .PURCHASE,
              amount := price,
              reason := service.name ++ " " ++ number.phoneNumber,
              createdAt := now }
          (true,
           { db with users, reservations, numbers,
                     transactions := db.transactions ++ [tx] })
      | _, _, _ => (false, db)

/-- The number release of the `check_expired_reservations` sweep
(main.py:1776–1790): DELETED when no code was ever received, AVAILABLE
otherwise; the reservation fields are cleared in both cases. -/
def releaseNumberExpired (n : Number) : Number :=
  if n.codeReceivedAt = none then
    { n with status := .DELETED, reservedByUserId := none,
             reservedAt := none, expiresAt := none }
  else
    { n with status := .AVAILABLE, reservedByUserId := none,
             reservedAt := none, expiresAt := none }

/-- One iteration of the `check_expired_reservations` loop (main.py:1772):
mark the reservation EXPIRED and release its number.  (`first()` touches one
row; under unique ids the map below touches the same row.) -/
def expireOne (db : DB) (r : Reservation) : DB :=
  { db with
    reservations := db.reservations.map (fun x =>
      if x.id = r.id then { x with status := .EXPIRED } else x),
    numbers := db.numbers.map (fun n =>
      if n.id = r.numberId then releaseNumberExpired n else n) }

/-- One pass of `check_expired_reservations` (main.py:1760): query the
expired WAITING_CODE reservations, then process them in order. -/
def checkExpiredReservations (db : DB) (now : Nat) : DB :=
  let expired := db.reservations.filter (fun r =>
    r.status == ReservationStatus.WAITING_CODE && decide (r.expiredAt < now))
  expired.foldl expireOne db

/-- The unconditional release of `cleanup_expired_reservations`
(main.py:1207–1212): always back to AVAILABLE. -/
def releaseNumberCleanup (n : Number) : Number :=
  { n with status := .AVAILABLE, reservedByUserId := none,
           reservedAt := none, expiresAt := none }

/-- One iteration of the `cleanup_expired_reservations` loop (main.py:1202). -/
def cleanupOne (db : DB) (r : Reservation) : DB :=
  { db with
    reservations := db.reservations.map (fun x =>
      if x.id = r.id then { x with status := .EXPIRED } else x),
    numbers := db.numbers.map (fun n =>
      if n.id = r.numberId then releaseNumberCleanup n else n) }

/-- One pass of `cleanup_expired_reservations` (main.py:1189), the slower
retention-job sweep. -/
def cleanupExpiredReservations (db : DB) (now : Nat) : DB :=
  let expired := db.reservations.filter (fun r =>
    r.status == ReservationStatus.WAITING_CODE && decide (r.expiredAt < now))
  expired.foldl cleanupOne db

/-- `find_reservation_by_last_digits` (main.py:297): the first active
WAITING_CODE reservation of the service whose number's trailing digits
(matched at the search string's own length) equal `lastDigits`. -/
def findReservationByLastDigits (db : DB) (lastDigits : String)
    (serviceId : Nat) (now : Nat) : Option Reservation :=
  let activeReservations := db.reservations.filter (fun r =>
    r.serviceId == serviceId && r.status == ReservationStatus.WAITING_CODE &&
    decide (now < r.expiredAt))
  let digitsCount := lastDigits.length
  activeReservations.find? (fun r =>
    match db.numbers.find? (fun n => n.id == r.numberId) with
    | some n => extractLastDigits n.phoneNumber digitsCount == lastDigits
    | none => false)

/-- `change_number_handler` (main.py:3672): release the current number
(DELETED when it has a COMPLETED reservation or `code_received_at` set, else
AVAILABLE), pick a replacement among AVAILABLE or USED numbers of the same
service and country, else restore the original reservation.  A missing
current number would raise before any commit, leaving the store unchanged. -/
def changeNumberHandler (db : DB) (reservationId now : Nat) : DB :=
  match db.reservations.find? (fun r => r.id == reservationId) with
  | none => db
  | some reservation =>
    if reservation.status ≠ .WAITING_CODE then db
    else
      match db.numbers.find? (fun n => n.id == reservation.numberId) with
      | none => db
      | some currentNumber =>
        let hasReceivedCode := db.reservations.any (fun x =>
          x.numberId == currentNumber.id &&
          x.status == ReservationStatus.COMPLETED)
        let releasedStatus : NumberStatus :=
          if hasReceivedCode || currentNumber.codeReceivedAt ≠ none then
            .DELETED
          else .AVAILABLE
        let numbers1 := db.numbers.map (fun n =>
          if n.id = currentNumber.id then
            { n with status := releasedStatus, reservedByUserId := none,
                     reservedAt := none, expiresAt := none }
          else n)
        match numbers1.find? (fun n =>
            n.serviceId == reservation.serviceId &&
            n.countryCode == currentNumber.countryCode &&
            (n.status == NumberStatus.AVAILABLE ||
             n.status == NumberStatus.USED) &&
            n.id ≠ currentNumber.id) with
        | none =>
          let numbersR := numbers1.map (fun n =>
            if n.id = currentNumber.id then
              { n with status := .RESERVED,
                       reservedByUserId := some reservation.userId,
                       reservedAt := some now,
                       expiresAt := some reservation.expiredAt }
            else n)
          { db with numbers := numbersR }
        | some newNumber =>
          let reservations := db.reservations.map (fun r =>
            if r.id = reservation.id then { r with numberId := newNumber.id }
            else r)
          let numbers2 := numbers1.map (fun n =>
            if n.id = newNumber.id then
              { n with status := .RESERVED,
                       reservedByUserId := some reservation.userId,
                       reservedAt := some now,
                       expiresAt := some reservation.expiredAt }
            else n)
          { db with numbers := numbers2, reservations }

/-- `change_country_handler` (main.py:3749): release the current number under
the same policy as change-number, then DELETE the reservation row outright
(`db.delete(reservation)`).  No status check guards the entry. -/
def changeCountryHandler (db : DB) (reservationId : Nat) : DB :=
  match db.reservations.find? (fun r => r.id == reservationId) with
  | none => db
  | some reservation =>
    let numbers1 :=
      match db.numbers.find? (fun n => n.id == reservation.numberId) with
      | none => db.numbers
      | some currentNumber =>
        let hasReceivedCode := db.reservations.any (fun x =>
          x.numberId == currentNumber.id &&
          x.status == ReservationStatus.COMPLETED)
        let releasedStatus : NumberStatus :=
          if hasReceivedCode || currentNumber.codeReceivedAt ≠ none then
            .DELETED
          else .AVAILABLE
        db.numbers.map (fun n =>
          if n.id = currentNumber.id then
            { n with status := releasedStatus, reservedByUserId := none,
                     reservedAt := none, expiresAt := none }
          else n)
    { db with numbers := numbers1,
              reservations := db.reservations.filter (fun x =>
                x.id ≠ reservation.id) }

/-! ## The correlator pipeline (`process_incoming_group_message`, main.py:2967) -/

/-- The recovery loop of main.py:3038–3048: for each `\d{3,}` group of the
text, search an active reservation by its last three digits; on a hit whose
number row exists, the loop breaks with that phone number, otherwise it
continues; without any hit the incoming `number` value is kept. -/
def recoverNumberAux (db : DB) (serviceId now : Nat) (number0 : Option String) :
    List (List Char) → Option String
  | [] => number0
  | dg :: rest =>
    let lastDigits := String.mk (dg.drop (dg.length - 3))
    match findReservationByLastDigits db lastDigits serviceId now with
    | some reservation =>
      match db.numbers.find? (fun n => n.id == reservation.numberId) with
      | some numberObj => some numberObj.phoneNumber
      | none => recoverNumberAux db serviceId now number0 rest
    | none => recoverNumberAux db serviceId now number0 rest

/-- The masked-search loop of main.py:3099–3108.  `reservation_from_masked_search`
and `matching_service_id` persist across iterations whose number row is
missing (only a found number row breaks the loop), so the result is the last
reservation found, paired with its number row exactly when that row exists. -/
def maskedSearchAux (db : DB) (lastDigits : String) (now : Nat)
    (acc : Option (Reservation × Nat)) :
    List ServiceGroup → Option (Reservation × Nat) × Option Number
  | [] => (acc, none)
  | sg :: rest =>
    match findReservationByLastDigits db lastDigits sg.serviceId now with
    | some reservation =>
      match db.numbers.find? (fun n => n.id == reservation.numberId) with
      | some numberObj => (some (reservation, sg.serviceId), some numberObj)
      | none =>
        maskedSearchAux db lastDigits now (some (reservation, sg.serviceId))
          rest
    | none => maskedSearchAux db lastDigits now acc rest

/-- Reservation binding for a resolved number row (main.py:3128–3162): the
WAITING_CODE reservation on the number, else a last-three-digits fallback in
the matching service — whose own number row is re-read and may be absent
(main.py:3145), which later faults the completion step.  `none` means no
reservation was found (the ORPHAN outcome). -/
def resolveReservation (db : DB) (numberObj : Number) (matchingServiceId : Nat)
    (number : String) (now : Nat) : Option (Reservation × Option Number) :=
  match db.reservations.find? (fun r =>
      r.numberId == numberObj.id &&
      r.status == ReservationStatus.WAITING_CODE) with
  | some r => some (r, some numberObj)
  | none =>
    let lastDigits := extractLastDigits number 3
    match findReservationByLastDigits db lastDigits matchingServiceId now with
    | some r => some (r, db.numbers.find? (fun n => n.id == r.numberId))
    | none => none

/-- Set the status of this pipeline run's ProviderMessage row. -/
def markProviderMessage (db : DB) (pmId : Nat) (st : MessageStatus) : DB :=
  { db with providerMessages := db.providerMessages.map (fun m =>
      if m.id = pmId then { m with status := st } else m) }

/-- The in-line completion step of main.py:3166–3246, reached with a bound
reservation.  Unlike `complete_reservation_atomic` it neither increments
`usage_count` nor applies the three-distinct-users retirement rule.  A
missing number row raises at `number_obj.price_override` and is caught by the
inner handler, which records a `completion_failed` BlockedMessage and rejects
the message (main.py:3234–3244). -/
def completeInline (db : DB) (pmId serviceGroupServiceId : Nat)
    (groupChatId senderId messageText : String) (reservation : Reservation)
    (numberObjOpt : Option Number) (code : String) (now : Nat) : DB :=
  match db.users.find? (fun u => u.id == reservation.userId),
        db.services.find? (fun s => s.id == reservation.serviceId) with
  | some user, some service =>
    match numberObjOpt with
    | none =>
      let blocked : BlockedMessage :=
        { id := db.nextBlockedMessageId, serviceId := serviceGroupServiceId,
          groupChatId, senderId, messageText, reason := "completion_failed",
          createdAt := now }
      markProviderMessage
        { db with blockedMessages := db.blockedMessages ++ [blocked] }
        pmId .REJECTED
    | some numberObj =>
      let price := priceOf numberObj service
      if price ≤ user.balance then
        let users := db.users.map (fun u =>
          if u.id = user.id then { u with balance := u.balance - price }
          else u)
        let reservations := db.reservations.map (fun r =>
          if r.id = reservation.id then
            { r with status := .COMPLETED, codeValue := some code,
                     completedAt := some now }
          else r)
        let numbers := db.numbers.map (fun n =>
          if n.id = numberObj.id then
            { n with status := .USED, codeReceivedAt := some now }
          else n)
        let tx : Transaction :=
          { id := db.nextTransactionId, userId := user.id, type := .PURCHASE,
            amount := price,
            reason := service.name ++ " " ++ numberObj.phoneNumber,
            createdAt := now }
        let providerMessages := db.providerMessages.map (fun m =>
          if m.id = pmId then
            { m with status := .PROCESSED, processedAt := some now }
          else m)
        { db with users, reservations, numbers,
                  transactions := db.transactions ++ [tx], providerMessages }
      else
        markProviderMessage
          { db with reservations := db.reservations.map (fun r =>
              if r.id = reservation.id then { r with status := .EXPIRED }
              else r) }
          pmId .REJECTED
  | _, _ =>
    let blocked : BlockedMessage :=
      { id := db.nextBlockedMessageId, serviceId := serviceGroupServiceId,
        groupChatId, senderId, messageText,
        reason := "user_or_service_not_found", createdAt := now }
    markProviderMessage
      { db with blockedMessages := db.blockedMessages ++ [blocked] }
      pmId .REJECTED

/-- The correlation-and-completion half of `process_incoming_group_message`
(main.py:3050–3246), taking the extraction results `number2` (the recovered
phone) and `code1` (the code) as inputs: record a BlockedMessage when either
is missing; otherwise resolve the number row across the group's active
services, bind a reservation (exact, last-digits fallback, or masked search)
and run the in-line completion.  A faulting masked search (reservation found
but its number row missing, main.py:3121) reaches the outer handler, which
rolls back everything after the committed message insert, leaving `db1`. -/
def correlateAndComplete (db1 : DB) (pmId sgServiceId : Nat)
    (groupChatId senderId messageText : String)
    (number2 code1 : Option String) (now : Nat) : DB :=
  if strFalsy number2 || strFalsy code1 then
    let blocked : BlockedMessage :=
      { id := db1.nextBlockedMessageId, serviceId := sgServiceId,
        groupChatId, senderId, messageText,
        reason := "no_number_or_no_code", createdAt := now }
    markProviderMessage
      { db1 with blockedMessages := db1.blockedMessages ++ [blocked] }
      pmId .REJECTED
  else
    match (db1.serviceGroups.filter (fun sg =>
        sg.groupChatId == groupChatId && sg.active)).findSome? (fun sg =>
        match db1.numbers.find? (fun n =>
            n.phoneNumber == number2.getD "" &&
            n.serviceId == sg.serviceId) with
        | some n => some (n, sg.serviceId)
        | none => none) with
    | some (numberObj, matchingServiceId) =>
      match resolveReservation db1 numberObj matchingServiceId
          (number2.getD "") now with
      | none => markProviderMessage db1 pmId .ORPHAN
      | some (reservation, numberObjOpt) =>
        completeInline db1 pmId sgServiceId groupChatId senderId
          messageText reservation numberObjOpt (code1.getD "") now
    | none =>
      match extractLastThreeDigitsFromMaskedNumber messageText with
      | none => markProviderMessage db1 pmId .ORPHAN
      | some extractedLastDigits =>
        match maskedSearchAux db1 extractedLastDigits now none
            (db1.serviceGroups.filter (fun sg =>
              sg.groupChatId == groupChatId && sg.active)) with
        | (none, _) => markProviderMessage db1 pmId .ORPHAN
        | (some _, none) => db1
        | (some (reservation, _), some numberObj) =>
          completeInline db1 pmId sgServiceId groupChatId senderId
            messageText reservation (some numberObj) (code1.getD "") now

/-- `process_incoming_group_message` (main.py:2967): the full correlator
pipeline.  Every submission — including one textually identical to an earlier
one — inserts a fresh PENDING ProviderMessage and runs the whole pipeline;
there is no duplicate detection. -/
def processIncomingGroupMessage (db : DB)
    (groupChatId senderId messageText : String) (now : Nat) : DB :=
  match db.serviceGroups.find? (fun sg =>
      sg.groupChatId == groupChatId && sg.active) with
  | none => db
  | some serviceGroup =>
    let pmId := db.nextProviderMessageId
    let pm0 : ProviderMessage :=
      { id := pmId, serviceId := serviceGroup.serviceId, groupChatId,
        senderId, messageText, receivedAt := now, status := .PENDING,
        processedAt := none }
    let db1 : DB := { db with providerMessages := db.providerMessages ++ [pm0] }
    let lchars := messageText.toList
    let regexPat := serviceGroup.regexPattern.getD (RegexPat.boundedDigits 4 6)
    let nc0 := extractNumberAndCode messageText regexPat
    let nc1 :=
      if strFalsy nc0.1 || strFalsy nc0.2 then
        extractNumberAndCode messageText (RegexPat.boundedDigits 4 6)
      else nc0
    let code1 : Option String :=
      if strFalsy nc1.2 then
        match (findallBoundedDigits 4 6 lchars).getLast? with
        | some g => some (String.mk g)
        | none =>
          match (findallBoundedDigits 3 3 lchars).getLast? with
          | some g => some (String.mk g)
          | none => nc1.2
      else nc1.2
    let number2 : Option String :=
      if strFalsy nc1.1 || strFalsy code1 then
        if ¬strFalsy code1 then
          recoverNumberAux db1 serviceGroup.serviceId now nc1.1
            (findallDigitRunsAtLeast 3 lchars)
        else nc1.1
      else nc1.1
    correlateAndComplete db1 pmId serviceGroup.serviceId groupChatId senderId
      messageText number2 code1 now

/-! ## Concrete stores used by witnesses and counterexamples -/

def wUser1 : User := { id := 1, telegramId := "100", balance := 100 }

def wUser2 : User := { id := 2, telegramId := "200", balance := 100 }

def wUserPoor : User := { id := 1, telegramId := "100", balance := 3 }

def wService : Service :=
  { id := 1, name := "WhatsApp", defaultPrice := 10, active := true }

def wGroup : ServiceGroup :=
  { serviceId := 1, groupChatId := "g", regexPattern := none, active := true }

/-- A RESERVED number held by user 1, never having received a code. -/
def wNum1 : Number :=
  { id := 1, phoneNumber := "+201112223344", serviceId := 1,
    countryCode := "+20", status := .RESERVED, priceOverride := none,
    reservedByUserId := some 1, reservedAt := some 1, expiresAt := some 100,
    codeReceivedAt := none, usageCount := 0 }

/-- A second RESERVED number, held by user 2, sharing the last three digits
`344` with `wNum1`. -/
def wNum2 : Number :=
  { id := 2, phoneNumber := "+201555666344", serviceId := 1,
    countryCode := "+20", status := .RESERVED, priceOverride := none,
    reservedByUserId := some 2, reservedAt := some 1, expiresAt := some 100,
    codeReceivedAt := none, usageCount := 0 }

def wRes1 : Reservation :=
  { id := 1, userId := 1, serviceId := 1, numberId := 1,
    status := .WAITING_CODE, createdAt := 1, expiredAt := 100,
    completedAt := none, codeValue := none }

def wRes2 : Reservation :=
  { id := 2, userId := 2, serviceId := 1, numberId := 2,
    status := .WAITING_CODE, createdAt := 1, expiredAt := 100,
    completedAt := none, codeValue := none }

/-- Store for the duplicate-submission scenario: two users waiting on
numbers with the same tail digits. -/
def wDbDup : DB :=
  { users := [wUser1, wUser2], services := [wService],
    numbers := [wNum1, wNum2], reservations := [wRes1, wRes2],
    transactions := [], providerMessages := [], blockedMessages := [],
    serviceGroups := [wGroup] }

def wDupMessage : String := "to:+201112223344 code:482913"

/-- A RESERVED number carrying a zero price override, already completed for
two other users (8 and 9). -/
def wNumOverride : Number :=
  { id := 3, phoneNumber := "+201777888999", serviceId := 1,
    countryCode := "+20", status := .RESERVED, priceOverride := some 0,
    reservedByUserId := some 1, reservedAt := some 1, expiresAt := some 100,
    codeReceivedAt := none, usageCount := 2 }

def wResOld1 : Reservation :=
  { id := 11, userId := 8, serviceId := 1, numberId := 3,
    status := .COMPLETED, createdAt := 0, expiredAt := 50,
    completedAt := some 5, codeValue := some "111111" }

def wResOld2 : Reservation :=
  { id := 12, userId := 9, serviceId := 1, numberId := 3,
    status := .COMPLETED, createdAt := 0, expiredAt := 50,
    completedAt := some 6, codeValue := some "222222" }

def wResCur : Reservation :=
  { id := 13, userId := 1, serviceId := 1, numberId := 3,
    status := .WAITING_CODE, createdAt := 1, expiredAt := 100,
    completedAt := none, codeValue := none }

/-- Store for the billing counterexample: user 1 is about to become the third
distinct completing user of a number whose `priceOverride` is `0`. -/
def wDbBilling : DB :=
  { users := [wUser1], services := [wService], numbers := [wNumOverride],
    reservations := [wResOld1, wResOld2, wResCur], transactions := [],
    providerMessages := [], blockedMessages := [], serviceGroups := [wGroup] }

/-- Store for the insufficient-funds counterexample: balance 3, price 10. -/
def wDbPoor : DB :=
  { users := [wUserPoor], services := [wService], numbers := [wNum1],
    reservations := [wRes1], transactions := [], providerMessages := [],
    blockedMessages := [], serviceGroups := [wGroup] }

/-- A RESERVED number that has received a code (`codeReceivedAt` set), whose
reservation has expired. -/
def wNumSeen : Number :=
  { id := 1, phoneNumber := "+201112223344", serviceId := 1,
    countryCode := "+20", status := .RESERVED, priceOverride := none,
    reservedByUserId := some 1, reservedAt := some 1, expiresAt := some 8,
    codeReceivedAt := some 5, usageCount := 1 }

def wResExpired : Reservation :=
  { id := 1, userId := 1, serviceId := 1, numberId := 1,
    status := .WAITING_CODE, createdAt := 1, expiredAt := 8,
    completedAt := none, codeValue := none }

/-- Store for the expiry-sweep counterexample: an expired reservation on a
number whose `codeReceivedAt` is set. -/
def wDbExpirySeen : DB :=
  { users := [wUser1], services := [wService], numbers := [wNumSeen],
    reservations := [wResExpired], transactions := [], providerMessages := [],
    blockedMessages := [], serviceGroups := [wGroup] }

/-- Store with an expired reservation on a number that never received a
code. -/
def wDbExpiryUnseen : DB :=
  { users := [wUser1], services := [wService], numbers := [wNum1],
    reservations := [wResExpired], transactions := [], providerMessages := [],
    blockedMessages := [], serviceGroups := [wGroup] }

/-- Store for the in-line retirement counterexample: an incoming message will
complete `wRes1` on `wNum1`, which two other users already completed. -/
def wNumTwice : Number :=
  { id := 1, phoneNumber := "+201112223344", serviceId := 1,
    countryCode := "+20", status := .RESERVED, priceOverride := none,
    reservedByUserId := some 1, reservedAt := some 1, expiresAt := some 100,
    codeReceivedAt := none, usageCount := 2 }

def wResOld1n : Reservation :=
  { id := 11, userId := 8, serviceId := 1, numberId := 1,
    status := .COMPLETED, createdAt := 0, expiredAt := 50,
    completedAt := some 5, codeValue := some "111111" }

def wResOld2n : Reservation :=
  { id := 12, userId := 9, serviceId := 1, numberId := 1,
    status := .COMPLETED, createdAt := 0, expiredAt := 50,
    completedAt := some 6, codeValue := some "222222" }

def wDbInline : DB :=
  { users := [wUser1], services := [wService], numbers := [wNumTwice],
    reservations := [wResOld1n, wResOld2n, wRes1], transactions := [],
    providerMessages := [], blockedMessages := [], serviceGroups := [wGroup] }

/-- An empty store. -/
def wDbEmpty : DB :=
  { users := [], services := [], numbers := [], reservations := [],
    transactions := [], providerMessages := [], blockedMessages := [],
    serviceGroups := [] }

def wNumAvail1 : Number :=
  { id := 1, phoneNumber := "+201000000001", serviceId := 1,
    countryCode := "+20", status := .AVAILABLE, priceOverride := none,
    reservedByUserId := none, reservedAt := none, expiresAt := none,
    codeReceivedAt := none, usageCount := 0 }

def wNumAvail2 : Number :=
  { id := 2, phoneNumber := "+201000000002", serviceId := 1,
    countryCode := "+20", status := .AVAILABLE, priceOverride := none,
    reservedByUserId := none, reservedAt := none, expiresAt := none,
    codeReceivedAt := none, usageCount := 0 }

/-- Store with two AVAILABLE numbers and no reservations. -/
def wDbReserve : DB :=
  { users := [wUser1], services := [wService],
    numbers := [wNumAvail1, wNumAvail2], reservations := [],
    transactions := [], providerMessages := [], blockedMessages := [],
    serviceGroups := [wGroup] }

/-! ## Claim C10: reserve without inventory changes nothing -/

/-- C10: whenever `reserve_number` finds no eligible Number it returns no
reservation and leaves the store entirely unchanged — no Number changes
status or reservation fields and no Reservation row is created. -/
theorem claimC10_reserve_no_inventory_no_change (db : DB)
    (userId serviceId : Nat) (countryCode : String) (timeoutMin now : Nat)
    (h : (reserveNumber db userId serviceId countryCode timeoutMin now).1 =
      none) :
    (reserveNumber db userId serviceId countryCode timeoutMin now).2 = db := by
  unfold reserveNumber at h ⊢
  cases hf : db.numbers.find? (reserveEligible db userId serviceId countryCode)
    with
  | none => rfl
  | some n => rw [hf] at h; simp at h

/-- Witness for C10 at a concrete input: the empty store has no inventory and
is returned unchanged. -/
theorem claimC10_witness :
    (reserveNumber wDbEmpty 1 1 "+20" 20 0).1 = none ∧
    (reserveNumber wDbEmpty 1 1 "+20" 20 0).2 = wDbEmpty :=
  ⟨by decide, claimC10_reserve_no_inventory_no_change wDbEmpty 1 1 "+20" 20 0
    (by decide)⟩

/-! ## Claim C3: billing on insufficient balance -/

/-- C3 (amended): when billing completion runs on a WAITING_CODE reservation
whose user's balance is below the price, the operation reports failure, the
reservation transitions to EXPIRED, and nothing else changes: no Transaction
is appended, the balance is untouched, and — contrary to the original claim —
the reserved Number is NOT released or retired; it keeps every field,
remaining RESERVED. -/
theorem claimC3_insufficient_funds (db : DB) (reservationId : Nat)
    (code : String) (now : Nat) (r : Reservation) (u : User) (s : Service)
    (n : Number)
    (hr : db.reservations.find? (fun x => x.id == reservationId) = some r)
    (hst : r.status = .WAITING_CODE)
    (hu : db.users.find? (fun x => x.id == r.userId) = some u)
    (hs : db.services.find? (fun x => x.id == r.serviceId) = some s)
    (hn : db.numbers.find? (fun x => x.id == r.numberId) = some n)
    (hb : u.balance < priceOf n s) :
    (completeReservationAtomic db reservationId code now).1 = false ∧
    (completeReservationAtomic db reservationId code now).2.users = db.users ∧
    (completeReservationAtomic db reservationId code now).2.numbers =
      db.numbers ∧
    (completeReservationAtomic db reservationId code now).2.transactions =
      db.transactions ∧
    (completeReservationAtomic db reservationId code now).2.reservations =
      db.reservations.map (fun x =>
        if x.id = r.id then { x with status := .EXPIRED } else x) ∧
    ∃ r' ∈ (completeReservationAtomic db reservationId code now).2.reservations,
      r'.id = r.id ∧ r'.status = .EXPIRED := by
  have key : completeReservationAtomic db reservationId code now =
      (false,
       { db with reservations := db.reservations.map (fun x =>
           if x.id = r.id then { x with status := .EXPIRED } else x) }) := by
    unfold completeReservationAtomic
    rw [hr]
    simp only [hst, hu, hs, hn, ne_eq, not_true_eq_false, if_false,
      if_pos hb]
  rw [key]
  refine ⟨rfl, rfl, rfl, rfl, rfl, ?_⟩
  refine ⟨{ r with status := .EXPIRED }, ?_, rfl, rfl⟩
  have hmem : r ∈ db.reservations := List.mem_of_find?_eq_some hr
  have : (fun x => if x.id = r.id then { x with status := .EXPIRED } else x) r
      = { r with status := ReservationStatus.EXPIRED } := by simp
  exact this ▸ List.mem_map_of_mem _ hmem

/-- Witness for C3 at a concrete input (`wDbPoor`: balance 3, price 10). -/
theorem claimC3_witness :
    (completeReservationAtomic wDbPoor 1 "482913" 10).1 = false ∧
    (completeReservationAtomic wDbPoor 1 "482913" 10).2.numbers =
      wDbPoor.numbers :=
  ⟨(claimC3_insufficient_funds wDbPoor 1 "482913" 10 wRes1 wUserPoor wService
      wNum1 (by decide) (by decide) (by decide) (by decide) (by decide)
      (by decide)).1,
   (claimC3_insufficient_funds wDbPoor 1 "482913" 10 wRes1 wUserPoor wService
      wNum1 (by decide) (by decide) (by decide) (by decide) (by decide)
      (by decide)).2.2.1⟩

/-- Counterexample for C3 as stated: in `wDbPoor` the reserved Number never
received a code (`codeReceivedAt = none`), so the claim's release policy
demands AVAILABLE after the INSUFFICIENT_FUNDS outcome; the code instead
leaves the Number RESERVED with its reservation fields intact. -/
theorem claimC3_counterexample :
    wNum1.codeReceivedAt = none ∧
    (completeReservationAtomic wDbPoor 1 "482913" 10).1 = false ∧
    ((completeReservationAtomic wDbPoor 1 "482913" 10).2.reservations.map
      (·.status)) = [.EXPIRED] ∧
    (completeReservationAtomic wDbPoor 1 "482913" 10).2.numbers.map
      (fun n => (n.status, n.reservedByUserId)) =
      [(.RESERVED, some 1)] ∧
    NumberStatus.RESERVED ≠ NumberStatus.AVAILABLE ∧
    NumberStatus.RESERVED ≠ NumberStatus.DELETED := by
  decide

/-! ## Claim C2: billing on sufficient balance -/

/-- C2 (amended): billing completion on a WAITING_CODE reservation with
sufficient balance debits exactly the price — where the price is the Number's
`priceOverride` only when it is set AND nonzero (Python `or`), else the
Service's `defaultPrice` — marks the reservation COMPLETED with the supplied
code and `completedAt = now`, stamps the Number with `codeReceivedAt = now`
and an incremented `usageCount`, sets its status to USED unless the
three-distinct-users retirement rule fires (in which case DELETED), and
appends exactly one PURCHASE Transaction with that amount. -/
theorem claimC2_sufficient_funds (db : DB) (reservationId : Nat)
    (code : String) (now : Nat) (r : Reservation) (u : User) (s : Service)
    (n : Number)
    (hr : db.reservations.find? (fun x => x.id == reservationId) = some r)
    (hst : r.status = .WAITING_CODE)
    (hu : db.users.find? (fun x => x.id == r.userId) = some u)
    (hs : db.services.find? (fun x => x.id == r.serviceId) = some s)
    (hn : db.numbers.find? (fun x => x.id == r.numberId) = some n)
    (hb : priceOf n s ≤ u.balance) :
    (completeReservationAtomic db reservationId code now).1 = true ∧
    (∃ u' ∈ (completeReservationAtomic db reservationId code now).2.users,
      u'.id = u.id ∧ u'.balance = u.balance - priceOf n s) ∧
    (∃ r' ∈ (completeReservationAtomic db reservationId code now).2.reservations,
      r'.id = r.id ∧ r'.status = .COMPLETED ∧ r'.codeValue = some code ∧
      r'.completedAt = some now) ∧
    (∃ n' ∈ (completeReservationAtomic db reservationId code now).2.numbers,
      n'.id = n.id ∧ n'.codeReceivedAt = some now ∧
      n'.usageCount = n.usageCount + 1 ∧
      n'.status = (if 3 ≤ distinctCompletedUsers
          (completeReservationAtomic db reservationId code now).2.reservations
          n.id then NumberStatus.DELETED else NumberStatus.USED)) ∧
    (∃ t, (completeReservationAtomic db reservationId code now).2.transactions
        = db.transactions ++ [t] ∧
      t.type = .PURCHASE ∧ t.amount = priceOf n s ∧ t.userId = u.id) := by
  have key : completeReservationAtomic db reservationId code now =
      (true,
       { db with
         users := db.users.map (fun x =>
           if x.id = u.id then { x with balance := x.balance - priceOf n s }
           else x),
         reservations := db.reservations.map (fun x =>
           if x.id = r.id then
             { x with status := .COMPLETED, codeValue := some code,
                      completedAt := some now }
           else x),
         numbers := db.numbers.map (fun x =>
           if x.id = n.id then
             { x with
               status := if 3 ≤ distinctCompletedUsers
                   (db.reservations.map (fun y =>
                     if y.id = r.id then
                       { y with status := .COMPLETED, codeValue := some code,
                                completedAt := some now }
                     else y)) n.id then NumberStatus.DELETED
                 else NumberStatus.USED,
               codeReceivedAt := some now, usageCount := x.usageCount + 1 }
           else x),
         transactions := db.transactions ++
           [{ id := db.nextTransactionId, userId := u.id, type := .PURCHASE,
              amount := priceOf n s,
              reason := s.name ++ " " ++ n.phoneNumber, createdAt := now }] })
      := by
    unfold completeReservationAtomic
    rw [hr]
    simp only [hst, hu, hs, hn, ne_eq, not_true_eq_false, if_false,
      if_neg (not_lt.mpr hb)]
  have hmemu : u ∈ db.users := List.mem_of_find?_eq_some hu
  have hmemr : r ∈ db.reservations := List.mem_of_find?_eq_some hr
  have hmemn : n ∈ db.numbers := List.mem_of_find?_eq_some hn
  rw [key]
  refine ⟨rfl, ?_, ?_, ?_, ?_⟩
  · exact ⟨_, List.mem_map.mpr ⟨u, hmemu, rfl⟩, by simp, by simp⟩
  · exact ⟨_, List.mem_map.mpr ⟨r, hmemr, rfl⟩, by simp, by simp, by simp,
      by simp⟩
  · exact ⟨_, List.mem_map.mpr ⟨n, hmemn, rfl⟩, by simp, by simp, by simp,
      by simp⟩
  · exact ⟨_, rfl, rfl, rfl, rfl⟩

/-- Witness for C2 at a concrete input (`wDbDup`, reservation 1, price 10 ≤
balance 100). -/
theorem claimC2_witness :
    (completeReservationAtomic wDbDup 1 "482913" 10).1 = true ∧
    ∃ t, (completeReservationAtomic wDbDup 1 "482913" 10).2.transactions =
        wDbDup.transactions ++ [t] ∧ t.type = .PURCHASE ∧
      t.amount = priceOf wNum1 wService ∧ t.userId = wUser1.id :=
  ⟨(claimC2_sufficient_funds wDbDup 1 "482913" 10 wRes1 wUser1 wService wNum1
      (by decide) (by decide) (by decide) (by decide) (by decide)
      (by decide)).1,
   (claimC2_sufficient_funds wDbDup 1 "482913" 10 wRes1 wUser1 wService wNum1
      (by decide) (by decide) (by decide) (by decide) (by decide)
      (by decide)).2.2.2.2⟩

/-- Counterexample for C2 as stated: in `wDbBilling` the Number's
`priceOverride` is set (to 0), so the claim's price is 0 and the user's
balance (100) suffices; but the code's Python `or` charges the service
default 10 — the appended PURCHASE Transaction has amount 10, not 0 — and,
this being the third distinct completing user, the Number ends DELETED, not
USED. -/
theorem claimC2_counterexample :
    wNumOverride.priceOverride = some 0 ∧
    ((0 : ℚ) ≤ wUser1.balance) ∧
    (completeReservationAtomic wDbBilling 13 "482913" 10).1 = true ∧
    ((completeReservationAtomic wDbBilling 13 "482913" 10).2.transactions.map
      (·.amount)) = [(10 : ℚ)] ∧
    ((10 : ℚ) ≠ (0 : ℚ)) ∧
    ((completeReservationAtomic wDbBilling 13 "482913" 10).2.numbers.map
      (·.status)) = [.DELETED] ∧
    NumberStatus.DELETED ≠ NumberStatus.USED := by
  decide

/-! ## Claim C7: change-country -/

/-- C7 (amended): on a WAITING_CODE reservation, `change_country_handler`
DELETES the reservation row outright — the record does not persist, in a
CANCELED state or any other (`ReservationStatus.CANCELED` is in fact never
assigned anywhere in the source) — and releases or retires its Number: DELETED
when the Number has some COMPLETED reservation or `codeReceivedAt` set, else
AVAILABLE, clearing `reservedByUserId`, `reservedAt` and `expiresAt`. -/
theorem claimC7_change_country (db : DB) (reservationId : Nat)
    (r : Reservation) (n : Number)
    (hr : db.reservations.find? (fun x => x.id == reservationId) = some r)
    (_hst : r.status = .WAITING_CODE)
    (hn : db.numbers.find? (fun x => x.id == r.numberId) = some n) :
    (changeCountryHandler db reservationId).reservations =
      db.reservations.filter (fun x => x.id ≠ r.id) ∧
    (∀ x ∈ (changeCountryHandler db reservationId).reservations,
      x.id ≠ r.id) ∧
    (∃ n' ∈ (changeCountryHandler db reservationId).numbers, n'.id = n.id ∧
      n'.reservedByUserId = none ∧ n'.reservedAt = none ∧
      n'.expiresAt = none ∧
      n'.status = (if db.reservations.any (fun x =>
            x.numberId == n.id &&
            x.status == ReservationStatus.COMPLETED) ||
          n.codeReceivedAt ≠ none then NumberStatus.DELETED
        else NumberStatus.AVAILABLE)) := by
  have hmemn : n ∈ db.numbers := List.mem_of_find?_eq_some hn
  have key : changeCountryHandler db reservationId =
      { db with
        numbers := db.numbers.map (fun x =>
          if x.id = n.id then
            { x with
              status := if db.reservations.any (fun y =>
                    y.numberId == n.id &&
                    y.status == ReservationStatus.COMPLETED) ||
                  n.codeReceivedAt ≠ none then NumberStatus.DELETED
                else NumberStatus.AVAILABLE,
              reservedByUserId := none, reservedAt := none,
              expiresAt := none }
          else x),
        reservations := db.reservations.filter (fun x => x.id ≠ r.id) } := by
    unfold changeCountryHandler
    rw [hr]
    simp only [hn]
  rw [key]
  refine ⟨rfl, ?_, ?_⟩
  · intro x hx
    simpa using (List.mem_filter.mp hx).2
  · exact ⟨_, List.mem_map.mpr ⟨n, hmemn, rfl⟩, by simp, by simp, by simp,
      by simp, by simp⟩

/-- Witness for C7 at a concrete input (`wDbExpiryUnseen`, reservation 1). -/
theorem claimC7_witness :
    (changeCountryHandler wDbExpiryUnseen 1).reservations =
      wDbExpiryUnseen.reservations.filter (fun x => x.id ≠ wResExpired.id) ∧
    (∀ x ∈ (changeCountryHandler wDbExpiryUnseen 1).reservations,
      x.id ≠ wResExpired.id) :=
  ⟨(claimC7_change_country wDbExpiryUnseen 1 wResExpired wNum1 (by decide)
      (by decide) (by decide)).1,
   (claimC7_change_country wDbExpiryUnseen 1 wResExpired wNum1 (by decide)
      (by decide) (by decide)).2.1⟩

/-- Counterexample for C7 as stated: `wResExpired` is in WAITING_CODE before
the call, and afterwards no reservation row exists at all — in particular
none in state CANCELED, contradicting "the reservation record persists in a
terminal state". -/
theorem claimC7_counterexample :
    wDbExpiryUnseen.reservations = [wResExpired] ∧
    wResExpired.status = .WAITING_CODE ∧
    (changeCountryHandler wDbExpiryUnseen 1).reservations = [] := by
  decide

/-! ## Claim C1: the expiry sweeps

The per-step and whole-fold lemmas below are generic in the release function
`f` applied to the expired reservation's number, so that they serve both
`check_expired_reservations` (release = `releaseNumberExpired`) and
`cleanup_expired_reservations` (release = `releaseNumberCleanup`). -/

/-- The common shape of one iteration of either sweep loop. -/
def sweepStep (f : Number → Number) (db : DB) (r : Reservation) : DB :=
  { db with
    reservations := db.reservations.map (fun x =>
      if x.id = r.id then { x with status := .EXPIRED } else x),
    numbers := db.numbers.map (fun n =>
      if n.id = r.numberId then f n else n) }

theorem expireOne_eq_sweepStep : expireOne = sweepStep releaseNumberExpired :=
  rfl

theorem cleanupOne_eq_sweepStep : cleanupOne = sweepStep releaseNumberCleanup :=
  rfl

theorem releaseNumberExpired_id (n : Number) :
    (releaseNumberExpired n).id = n.id := by
  unfold releaseNumberExpired; split <;> rfl

theorem releaseNumberExpired_code (n : Number) :
    (releaseNumberExpired n).codeReceivedAt = n.codeReceivedAt := by
  unfold releaseNumberExpired; split <;> rfl

theorem releaseNumberExpired_idem (n : Number) :
    releaseNumberExpired (releaseNumberExpired n) = releaseNumberExpired n := by
  unfold releaseNumberExpired
  by_cases h : n.codeReceivedAt = none <;> simp [h]

theorem releaseNumberCleanup_id (n : Number) :
    (releaseNumberCleanup n).id = n.id := rfl

theorem releaseNumberCleanup_idem (n : Number) :
    releaseNumberCleanup (releaseNumberCleanup n) = releaseNumberCleanup n :=
  rfl

theorem sweepStep_users (f : Number → Number) (db : DB) (r : Reservation) :
    (sweepStep f db r).users = db.users := rfl

theorem foldl_sweepStep_users (f : Number → Number) :
    ∀ (L : List Reservation) (db : DB),
      (L.foldl (sweepStep f) db).users = db.users := by
  intro L
  induction L with
  | nil => intro db; rfl
  | cons x xs ih => intro db; rw [List.foldl_cons, ih, sweepStep_users]

/-- A reservation row with a given id stays present across a sweep step. -/
theorem sweepStep_keeps_resRow (f : Number → Number) (r0 : Reservation)
    (db : DB) (r : Reservation)
    (h : ∃ x ∈ db.reservations, x.id = r0.id) :
    ∃ x ∈ (sweepStep f db r).reservations, x.id = r0.id := by
  obtain ⟨x, hx, hxid⟩ := h
  by_cases hc : x.id = r.id
  · exact ⟨{ x with status := .EXPIRED },
      List.mem_map.mpr ⟨x, hx, by simp [hc]⟩, hxid⟩
  · exact ⟨x, List.mem_map.mpr ⟨x, hx, by simp [hc]⟩, hxid⟩

/-- An EXPIRED reservation row stays EXPIRED across a sweep step. -/
theorem sweepStep_keeps_expired (f : Number → Number) (r0 : Reservation)
    (db : DB) (r : Reservation)
    (h : ∃ x ∈ db.reservations, x.id = r0.id ∧ x.status = .EXPIRED) :
    ∃ x ∈ (sweepStep f db r).reservations,
      x.id = r0.id ∧ x.status = .EXPIRED := by
  obtain ⟨x, hx, hxid, hxst⟩ := h
  by_cases hc : x.id = r.id
  · exact ⟨{ x with status := .EXPIRED },
      List.mem_map.mpr ⟨x, hx, by simp [hc]⟩, hxid, rfl⟩
  · exact ⟨x, List.mem_map.mpr ⟨x, hx, by simp [hc]⟩, hxid, hxst⟩

/-- Pre-release tracking of a number row: there is a row of the right id that
releases to the same value as the original. -/
theorem sweepStep_keeps_preN (f : Number → Number)
    (hfid : ∀ m, (f m).id = m.id) (hfidem : ∀ m, f (f m) = f m) (n0 : Number)
    (db : DB) (r : Reservation)
    (h : ∃ m ∈ db.numbers, m.id = n0.id ∧ f m = f n0) :
    ∃ m ∈ (sweepStep f db r).numbers, m.id = n0.id ∧ f m = f n0 := by
  obtain ⟨m, hm, hmid, hmf⟩ := h
  by_cases hc : m.id = r.numberId
  · refine ⟨f m, List.mem_map.mpr ⟨m, hm, by simp [hc]⟩, ?_, ?_⟩
    · rw [hfid, hmid]
    · rw [hfidem, hmf]
  · exact ⟨m, List.mem_map.mpr ⟨m, hm, by simp [hc]⟩, hmid, hmf⟩

/-- Post-release tracking: the released row survives later steps. -/
theorem sweepStep_keeps_postN (f : Number → Number)
    (hfidem : ∀ m, f (f m) = f m) (n0 : Number) (db : DB) (r : Reservation)
    (h : ∃ m ∈ db.numbers, m = f n0) :
    ∃ m ∈ (sweepStep f db r).numbers, m = f n0 := by
  obtain ⟨m, hm, hmf⟩ := h
  by_cases hc : m.id = r.numberId
  · refine ⟨f m, List.mem_map.mpr ⟨m, hm, by simp [hc]⟩, ?_⟩
    rw [hmf, hfidem]
  · exact ⟨m, List.mem_map.mpr ⟨m, hm, by simp [hc]⟩, hmf⟩

/-- The whole-fold lemma for a sweep: if a reservation `r` of the processed
list refers (by `numberId`) to the row `n`, then after the fold the
reservation row is EXPIRED and the number row holds `f n`. -/
theorem foldl_sweepStep_spec (f : Number → Number)
    (hfid : ∀ m, (f m).id = m.id) (hfidem : ∀ m, f (f m) = f m)
    (L1 L2 : List Reservation) (r : Reservation) (n : Number) (db : DB)
    (hmem : r ∈ db.reservations) (hnm : n ∈ db.numbers)
    (hid : n.id = r.numberId) :
    (∃ x ∈ ((L1 ++ r :: L2).foldl (sweepStep f) db).reservations,
      x.id = r.id ∧ x.status = .EXPIRED) ∧
    (∃ m ∈ ((L1 ++ r :: L2).foldl (sweepStep f) db).numbers, m = f n) := by
  rw [List.foldl_append, List.foldl_cons]
  have preserve1 :
      ∀ (L : List Reservation) (d : DB),
        ((∃ x ∈ d.reservations, x.id = r.id) ∧
         (∃ m ∈ d.numbers, m.id = n.id ∧ f m = f n)) →
        ((∃ x ∈ (L.foldl (sweepStep f) d).reservations, x.id = r.id) ∧
         (∃ m ∈ (L.foldl (sweepStep f) d).numbers, m.id = n.id ∧ f m = f n))
      := by
    intro L
    induction L with
    | nil => intro d hd; exact hd
    | cons y ys ih =>
      intro d hd
      rw [List.foldl_cons]
      exact ih _ ⟨sweepStep_keeps_resRow f r d y hd.1,
        sweepStep_keeps_preN f hfid hfidem n d y hd.2⟩
  have preserve2 :
      ∀ (L : List Reservation) (d : DB),
        ((∃ x ∈ d.reservations, x.id = r.id ∧ x.status = .EXPIRED) ∧
         (∃ m ∈ d.numbers, m = f n)) →
        ((∃ x ∈ (L.foldl (sweepStep f) d).reservations,
            x.id = r.id ∧ x.status = .EXPIRED) ∧
         (∃ m ∈ (L.foldl (sweepStep f) d).numbers, m = f n)) := by
    intro L
    induction L with
    | nil => intro d hd; exact hd
    | cons y ys ih =>
      intro d hd
      rw [List.foldl_cons]
      exact ih _ ⟨sweepStep_keeps_expired f r d y hd.1,
        sweepStep_keeps_postN f hfidem n d y hd.2⟩
  have h1 := preserve1 L1 db ⟨⟨r, hmem, rfl⟩, ⟨n, hnm, rfl, rfl⟩⟩
  set d1 := L1.foldl (sweepStep f) db with hd1
  obtain ⟨⟨x, hx, hxid⟩, ⟨m, hm, hmid, hmf⟩⟩ := h1
  have hstep :
      (∃ x ∈ (sweepStep f d1 r).reservations,
        x.id = r.id ∧ x.status = .EXPIRED) ∧
      (∃ m ∈ (sweepStep f d1 r).numbers, m = f n) := by
    constructor
    · exact ⟨{ x with status := .EXPIRED },
        List.mem_map.mpr ⟨x, hx, by simp [hxid]⟩, hxid, rfl⟩
    · refine ⟨f m, List.mem_map.mpr ⟨m, hm, ?_⟩, ?_⟩
      · have : m.id = r.numberId := by rw [hmid, hid]
        simp [this]
      · rw [hmf]
  exact preserve2 L2 (sweepStep f d1 r) hstep

/-- C1 (amended): for every reservation the ~30s expiry sweep
(`check_expired_reservations`) transitions from WAITING_CODE to EXPIRED, the
released Number ends DELETED if `codeReceivedAt` is NULL and AVAILABLE if it
is set — the inverse of the original claim — with `reservedByUserId`,
`reservedAt` and `expiresAt` cleared in both cases; no user balance changes.
The retention-job sweep (`cleanup_expired_reservations`) instead releases the
Number to AVAILABLE unconditionally, also clearing the fields, and also never
touches balances. -/
theorem claimC1_expiry_sweep (db : DB) (now : Nat) (r : Reservation)
    (n : Number) (hmem : r ∈ db.reservations)
    (hst : r.status = .WAITING_CODE) (hexp : r.expiredAt < now)
    (hnm : n ∈ db.numbers) (hid : n.id = r.numberId) :
    ((checkExpiredReservations db now).users = db.users ∧
     (∃ x ∈ (checkExpiredReservations db now).reservations,
       x.id = r.id ∧ x.status = .EXPIRED) ∧
     (∃ n' ∈ (checkExpiredReservations db now).numbers, n'.id = n.id ∧
       n'.status = (if n.codeReceivedAt = none then NumberStatus.DELETED
         else NumberStatus.AVAILABLE) ∧
       n'.reservedByUserId = none ∧ n'.reservedAt = none ∧
       n'.expiresAt = none)) ∧
    ((cleanupExpiredReservations db now).users = db.users ∧
     (∃ x ∈ (cleanupExpiredReservations db now).reservations,
       x.id = r.id ∧ x.status = .EXPIRED) ∧
     (∃ n' ∈ (cleanupExpiredReservations db now).numbers, n'.id = n.id ∧
       n'.status = NumberStatus.AVAILABLE ∧
       n'.reservedByUserId = none ∧ n'.reservedAt = none ∧
       n'.expiresAt = none)) := by
  have hfilter : r ∈ db.reservations.filter (fun x =>
      x.status == ReservationStatus.WAITING_CODE &&
      decide (x.expiredAt < now)) := by
    refine List.mem_filter.mpr ⟨hmem, ?_⟩
    simp [hst, hexp]
  obtain ⟨L1, L2, hsplit⟩ := List.append_of_mem hfilter
  constructor
  · have hspec := foldl_sweepStep_spec releaseNumberExpired
      releaseNumberExpired_id releaseNumberExpired_idem L1 L2 r n db hmem hnm
      hid
    have hkey : checkExpiredReservations db now =
        List.foldl (sweepStep releaseNumberExpired) db
          (db.reservations.filter (fun x =>
            x.status == ReservationStatus.WAITING_CODE &&
            decide (x.expiredAt < now))) := rfl
    rw [hkey, hsplit]
    refine ⟨?_, hspec.1, ?_⟩
    · exact foldl_sweepStep_users _ _ db
    · obtain ⟨m, hm, hmf⟩ := hspec.2
      refine ⟨m, hm, ?_, ?_, ?_, ?_, ?_⟩ <;>
        · rw [hmf]
          unfold releaseNumberExpired
          by_cases h : n.codeReceivedAt = none <;> simp [h]
  · have hspec := foldl_sweepStep_spec releaseNumberCleanup
      releaseNumberCleanup_id releaseNumberCleanup_idem L1 L2 r n db hmem hnm
      hid
    have hkey : cleanupExpiredReservations db now =
        List.foldl (sweepStep releaseNumberCleanup) db
          (db.reservations.filter (fun x =>
            x.status == ReservationStatus.WAITING_CODE &&
            decide (x.expiredAt < now))) := rfl
    rw [hkey, hsplit]
    refine ⟨?_, hspec.1, ?_⟩
    · exact foldl_sweepStep_users _ _ db
    · obtain ⟨m, hm, hmf⟩ := hspec.2
      exact ⟨m, hm, by rw [hmf]; rfl, by rw [hmf]; rfl, by rw [hmf]; rfl,
        by rw [hmf]; rfl, by rw [hmf]; rfl⟩

/-- Witness for C1 at a concrete input (`wDbExpiryUnseen`, swept at time 20):
the never-seen number is DELETED by the fast sweep. -/
theorem claimC1_witness :
    (checkExpiredReservations wDbExpiryUnseen 20).users =
      wDbExpiryUnseen.users ∧
    ∃ n' ∈ (checkExpiredReservations wDbExpiryUnseen 20).numbers,
      n'.id = wNum1.id ∧
      n'.status = (if wNum1.codeReceivedAt = none then NumberStatus.DELETED
        else NumberStatus.AVAILABLE) ∧
      n'.reservedByUserId = none ∧ n'.reservedAt = none ∧
      n'.expiresAt = none :=
  ⟨((claimC1_expiry_sweep wDbExpiryUnseen 20 wResExpired wNum1 (by decide)
      (by decide) (by decide) (by decide) (by decide)).1).1,
   ((claimC1_expiry_sweep wDbExpiryUnseen 20 wResExpired wNum1 (by decide)
      (by decide) (by decide) (by decide) (by decide)).1).2.2⟩

/-- Counterexample for C1 as stated: in `wDbExpirySeen` the expired
reservation's Number has `codeReceivedAt` set, so the claim requires DELETED;
the sweep instead makes it AVAILABLE (and no balance changes). -/
theorem claimC1_counterexample :
    wNumSeen.codeReceivedAt = some 5 ∧
    ((checkExpiredReservations wDbExpirySeen 20).reservations.map (·.status))
      = [.EXPIRED] ∧
    ((checkExpiredReservations wDbExpirySeen 20).numbers.map (·.status))
      = [.AVAILABLE] ∧
    NumberStatus.AVAILABLE ≠ NumberStatus.DELETED := by
  decide

/-! ## Claims C8 and C9: the normalizer

`normalizeCore` is the body of `normalize_phone_number` after its first step
(the `re.sub` strip); `normalizeCore_spec` characterises it over the stripped
character list. -/

/-- The characters `re.sub(r'[^\d\+]', '', phone)` keeps. -/
def keptChars (phone : String) : List Char :=
  phone.toList.filter (fun c => c.isDigit || c == '+')

/-- The digit characters of the input, in order. -/
def digitChars (phone : String) : List Char :=
  phone.toList.filter Char.isDigit

/-- The (only) failure mode of the `+`-handling: exactly one `+`, preceded by
some digit — then the `+` survives inside the digit block and `isdigit`
fails. -/
def strayPlus (phone : String) : Prop :=
  (keptChars phone).count '+' = 1 ∧ (keptChars phone).head? ≠ some '+'

instance (phone : String) : Decidable (strayPlus phone) := by
  unfold strayPlus; infer_instance

/-- `normalize_phone_number` after the strip step, as a function of the kept
characters. -/
def normalizeCore (kept : List Char) : String :=
  let collapsed : List Char :=
    if 1 < kept.count '+' then '+' :: kept.filter (fun c => c ≠ '+') else kept
  let plussed : List Char :=
    if collapsed.head? = some '+' then collapsed else '+' :: collapsed
  let digitsOnly : List Char :=
    if plussed.head? = some '+' then plussed.drop 1 else plussed
  if ¬(digitsOnly ≠ [] ∧ digitsOnly.all Char.isDigit) ∨ digitsOnly.length < 7
  then ""
  else
    if digitsOnly.take 2 = ['0', '0'] then String.mk ('+' :: digitsOnly.drop 2)
    else String.mk plussed

theorem normalize_eq_core (phone : String) :
    normalizePhoneNumber phone = normalizeCore (keptChars phone) := by
  by_cases h : phone = ""
  · subst h; rfl
  · unfold normalizePhoneNumber normalizeCore keptChars
    rw [if_neg h]

theorem digitChars_eq_filter_kept (phone : String) :
    digitChars phone = (keptChars phone).filter Char.isDigit := by
  unfold digitChars keptChars
  rw [List.filter_filter]
  apply List.filter_congr
  intro c _
  cases hd : c.isDigit <;> simp [hd]

theorem isDigit_ne_plus {c : Char} (h : c.isDigit) : c ≠ '+' := by
  intro heq; subst heq; exact absurd h (by decide)

theorem normalizeCore_all_digits (c : Char) (t : List Char)
    (hall : ∀ x ∈ c :: t, x.isDigit) :
    normalizeCore (c :: t) =
      if (c :: t).length < 7 then ""
      else
        if (c :: t).take 2 = ['0', '0'] then
          String.mk ('+' :: (c :: t).drop 2)
        else String.mk ('+' :: c :: t) := by
  have hcd : c.isDigit := hall c (by simp)
  have hcount : (c :: t).count '+' = 0 := by
    apply List.count_eq_zero.mpr
    intro hmem
    exact isDigit_ne_plus (hall '+' hmem) rfl
  have halldigb : (c :: t).all Char.isDigit = true := List.all_eq_true.mpr hall
  unfold normalizeCore
  rw [hcount]
  have hc' : ¬(some c = some '+') := by
    simp only [Option.some.injEq]; exact isDigit_ne_plus hcd
  simp only [Nat.not_lt_zero, if_false, List.head?_cons, if_neg hc',
    if_pos rfl, List.drop_one, List.tail_cons, ne_eq,
    reduceCtorEq, not_false_eq_true, true_and, not_true, false_or, if_true]
  simp [halldigb]

theorem normalizeCore_plus_digits (D : List Char) (hall : ∀ x ∈ D, x.isDigit) :
    normalizeCore ('+' :: D) =
      if D.length < 7 then ""
      else if D.take 2 = ['0', '0'] then String.mk ('+' :: D.drop 2)
      else String.mk ('+' :: D) := by
  have hD0 : D.count '+' = 0 := by
    apply List.count_eq_zero.mpr
    intro hmem
    exact isDigit_ne_plus (hall '+' hmem) rfl
  have hcount : ('+' :: D).count '+' = 1 := by
    simp [hD0]
  have halldigb : D.all Char.isDigit = true := List.all_eq_true.mpr hall
  unfold normalizeCore
  rw [hcount]
  simp only [Nat.lt_irrefl, if_false, List.head?_cons, if_pos rfl,
    List.drop_one, List.tail_cons]
  cases D with
  | nil => simp
  | cons d t =>
    simp only [ne_eq, reduceCtorEq, not_false_eq_true, true_and, halldigb,
      not_true, false_or]
    simp [halldigb]

theorem normalizeCore_many_plus (kept : List Char)
    (h2 : 1 < kept.count '+') :
    normalizeCore kept =
      normalizeCore ('+' :: kept.filter (fun c => decide (c ≠ '+'))) := by
  have hF : (kept.filter (fun c => decide (c ≠ '+'))).count '+' = 0 := by
    apply List.count_eq_zero.mpr
    intro hmem
    have := (List.mem_filter.mp hmem).2
    simp at this
  conv_lhs => unfold normalizeCore
  conv_rhs => unfold normalizeCore
  rw [if_pos h2]
  have hcount : ('+' :: kept.filter (fun c => decide (c ≠ '+'))).count '+' = 1
      := by rw [List.count_cons_self, hF]
  rw [hcount]
  simp only [Nat.lt_irrefl, if_false]

theorem normalizeCore_stray (kept : List Char)
    (h1 : kept.count '+' = 1) (hhd : kept.head? ≠ some '+') :
    normalizeCore kept = "" := by
  have hmem : '+' ∈ kept := by
    rw [← List.count_pos_iff]
    omega
  have hallf : kept.all Char.isDigit = false := by
    rw [Bool.eq_false_iff]
    intro hcontra
    have := List.all_eq_true.mp hcontra '+' hmem
    exact absurd this (by decide)
  unfold normalizeCore
  rw [h1]
  simp only [Nat.lt_irrefl, if_false, if_neg hhd, List.head?_cons, if_pos rfl,
    if_true, List.drop_one, List.tail_cons]
  have hcond : ¬(kept ≠ [] ∧ kept.all Char.isDigit = true) := by
    rw [hallf]
    rintro ⟨-, h⟩
    cases h
  rw [if_pos (Or.inl hcond)]

theorem mk_cons_ne_empty (a : Char) (l : List Char) :
    String.mk (a :: l) ≠ "" := by
  intro h
  have h2 := congrArg String.toList h
  simp at h2

/-- Characterisation of `normalizeCore` over a stripped list. -/
theorem normalizeCore_spec (kept : List Char)
    (hk : ∀ c ∈ kept, c.isDigit || c == '+') :
    (normalizeCore kept ≠ "" ↔
      7 ≤ (kept.filter Char.isDigit).length ∧
      ¬(kept.count '+' = 1 ∧ kept.head? ≠ some '+')) ∧
    (7 ≤ (kept.filter Char.isDigit).length →
      ¬(kept.count '+' = 1 ∧ kept.head? ≠ some '+') →
      normalizeCore kept = String.mk ('+' ::
        (if (kept.filter Char.isDigit).take 2 = ['0', '0'] then
          (kept.filter Char.isDigit).drop 2
        else kept.filter Char.isDigit))) := by
  have hdig : ∀ c ∈ kept, ¬(c = '+') → c.isDigit := by
    intro c hcmem hne
    rcases Bool.or_eq_true_iff.mp (hk c hcmem) with h | h
    · exact h
    · exact absurd (eq_of_beq h) hne
  rcases Nat.lt_or_ge (kept.count '+') 1 with hc0 | hc1
  · -- count = 0
    have hzero : kept.count '+' = 0 := Nat.lt_one_iff.mp hc0
    have hnotin : '+' ∉ kept := List.count_eq_zero.mp hzero
    have halldig : ∀ c ∈ kept, c.isDigit := fun c hc =>
      hdig c hc (fun he => hnotin (he ▸ hc))
    have hD : kept.filter Char.isDigit = kept :=
      List.filter_eq_self.mpr halldig
    have hnostray : ¬(kept.count '+' = 1 ∧ kept.head? ≠ some '+') := by
      rintro ⟨h1, -⟩; omega
    rw [hD]
    cases kept with
    | nil =>
      refine ⟨⟨fun h => absurd rfl h, ?_⟩, ?_⟩
      · rintro ⟨h7, -⟩; simp at h7
      · intro h7; simp at h7
    | cons c t =>
      rw [normalizeCore_all_digits c t halldig]
      constructor
      · constructor
        · intro h
          refine ⟨?_, hnostray⟩
          by_contra hlen
          rw [if_pos (by omega)] at h
          exact absurd rfl h
        · rintro ⟨h7, -⟩
          rw [if_neg (by omega)]
          split <;> exact mk_cons_ne_empty _ _
      · intro h7 _
        rw [if_neg (by omega)]
        split <;> rfl
  · rcases Nat.lt_or_ge 1 (kept.count '+') with hc2 | hc1'
    · -- count ≥ 2
      have hF : ∀ x ∈ kept.filter (fun c => decide (c ≠ '+')), x.isDigit := by
        intro x hx
        have hmem := (List.mem_filter.mp hx).1
        have hne := (List.mem_filter.mp hx).2
        simp at hne
        exact hdig x hmem hne
      have hDF : kept.filter Char.isDigit =
          kept.filter (fun c => decide (c ≠ '+')) := by
        apply List.filter_congr
        intro c hc
        by_cases he : c = '+'
        · subst he; simp
        · simp [hdig c hc he, he]
      have hnostray : ¬(kept.count '+' = 1 ∧ kept.head? ≠ some '+') := by
        rintro ⟨h1, -⟩; omega
      rw [normalizeCore_many_plus kept hc2,
        normalizeCore_plus_digits _ hF, hDF]
      constructor
      · constructor
        · intro h
          refine ⟨?_, hnostray⟩
          by_contra hlen
          rw [if_pos (by omega)] at h
          exact absurd rfl h
        · rintro ⟨h7, -⟩
          rw [if_neg (by omega)]
          split <;> exact mk_cons_ne_empty _ _
      · intro h7 _
        rw [if_neg (by omega)]
        split <;> rfl
    · -- count = 1
      have h1 : kept.count '+' = 1 := by omega
      by_cases hhd : kept.head? = some '+'
      · -- leading plus
        obtain ⟨t, rfl⟩ : ∃ t, kept = '+' :: t := by
          cases kept with
          | nil => simp at hhd
          | cons c t =>
            simp only [List.head?_cons, Option.some.injEq] at hhd
            exact ⟨t, by rw [hhd]⟩
        have ht0 : t.count '+' = 0 := by
          have := List.count_cons_self '+' t
          omega
        have htall : ∀ x ∈ t, x.isDigit := by
          intro x hx
          refine hdig x (List.mem_cons_of_mem _ hx) ?_
          intro he
          subst he
          exact absurd (List.count_eq_zero.mp ht0) (fun h => h hx)
        have hD : ('+' :: t).filter Char.isDigit = t := by
          rw [List.filter_cons_of_neg (by decide), List.filter_eq_self.mpr htall]
        have hnostray : ¬(('+' :: t).count '+' = 1 ∧
            ('+' :: t).head? ≠ some '+') := by
          rintro ⟨-, hne⟩; simp at hne
        rw [normalizeCore_plus_digits t htall, hD]
        constructor
        · constructor
          · intro h
            refine ⟨?_, hnostray⟩
            by_contra hlen
            rw [if_pos (by omega)] at h
            exact absurd rfl h
          · rintro ⟨h7, -⟩
            rw [if_neg (by omega)]
            split <;> exact mk_cons_ne_empty _ _
        · intro h7 _
          rw [if_neg (by omega)]
          split <;> rfl
      · -- stray plus
        rw [normalizeCore_stray kept h1 hhd]
        constructor
        · constructor
          · intro h; exact absurd rfl h
          · rintro ⟨-, hno⟩
            exact absurd ⟨h1, hhd⟩ hno
        · intro _ hno
          exact absurd ⟨h1, hhd⟩ hno


/-- C8 (amended): `normalize` returns a nonempty, `+`-prefixed result exactly
when the input has at least 7 digit characters and does not have exactly one
`+` preceded by a digit; the result is then `+` followed by all the digit
characters with one leading `00` discarded — the 7-digit minimum is tested
BEFORE the `00` strip (so results with as few as 5 digits occur) and no
15-digit maximum is enforced. -/
theorem claimC8_normalize_characterisation (phone : String) :
    (normalizePhoneNumber phone ≠ "" ↔
      7 ≤ (digitChars phone).length ∧ ¬strayPlus phone) ∧
    (7 ≤ (digitChars phone).length → ¬strayPlus phone →
      normalizePhoneNumber phone = String.mk ('+' ::
        (if (digitChars phone).take 2 = ['0', '0'] then
          (digitChars phone).drop 2
        else digitChars phone))) := by
  have hk : ∀ c ∈ keptChars phone, c.isDigit || c == '+' := by
    intro c hc
    exact (List.mem_filter.mp hc).2
  have h := normalizeCore_spec (keptChars phone) hk
  rw [← digitChars_eq_filter_kept, ← normalize_eq_core] at h
  unfold strayPlus
  exact h

/-- Witness for C8 at a concrete input. -/
theorem claimC8_witness :
    (7 ≤ (digitChars "+201112223344").length ∧
      ¬strayPlus "+201112223344") ∧
    normalizePhoneNumber "+201112223344" = String.mk ('+' ::
      (if (digitChars "+201112223344").take 2 = ['0', '0'] then
        (digitChars "+201112223344").drop 2
      else digitChars "+201112223344")) :=
  ⟨⟨by decide, by decide⟩,
   (claimC8_normalize_characterisation "+201112223344").2 (by decide)
     (by decide)⟩

/-- Counterexample for C8 as stated: `"00123456"` normalizes to `"+123456"`,
a `+`-prefixed result with only 6 digits after the `+` (the claim allows 7 to
15); and a 16-digit input keeps all 16 digits (the claim caps at 15). -/
theorem claimC8_counterexample :
    normalizePhoneNumber "00123456" = "+123456" ∧
    ((normalizePhoneNumber "00123456").toList.drop 1).length = 6 ∧ (6 < 7) ∧
    normalizePhoneNumber "1234567890123456" = "+1234567890123456" ∧
    ((normalizePhoneNumber "1234567890123456").toList.drop 1).length = 16 ∧
    (15 < 16) := by
  decide

/-- C9 (amended): `normalize (normalize x) = normalize x` holds whenever
`normalize x` is empty, or keeps at least 7 digits after the `+` and does not
begin with `00` after the `+` (the remaining inputs — at least four leading
zeros, or a `00` strip leaving fewer than 7 digits — are genuine fixpoint
failures); and `normalize`, hence also `detectCountry ∘ normalize`, is
unchanged by inserting or removing separator characters (anything other than
digits and `+`) anywhere in the input. -/
theorem claimC9_idempotence_and_stability :
    (∀ x : String,
      (normalizePhoneNumber x = "" ∨
        (7 ≤ ((normalizePhoneNumber x).toList.drop 1).length ∧
         ((normalizePhoneNumber x).toList.drop 1).take 2 ≠ ['0', '0'])) →
      normalizePhoneNumber (normalizePhoneNumber x) = normalizePhoneNumber x)
    ∧
    (∀ x t : String, keptChars t = keptChars x →
      normalizePhoneNumber t = normalizePhoneNumber x ∧
      detectCountryCode t = detectCountryCode x) := by
  constructor
  · intro x h
    by_cases he : normalizePhoneNumber x = ""
    · rw [he]; rfl
    · have hk : ∀ c ∈ keptChars x, c.isDigit || c == '+' := fun c hc =>
        (List.mem_filter.mp hc).2
      have hspec := normalizeCore_spec (keptChars x) hk
      have hne : normalizeCore (keptChars x) ≠ "" := by
        rw [← normalize_eq_core]; exact he
      obtain ⟨h7, hnostray⟩ := hspec.1.mp hne
      set D0 : List Char :=
        if ((keptChars x).filter Char.isDigit).take 2 = ['0', '0'] then
          ((keptChars x).filter Char.isDigit).drop 2
        else (keptChars x).filter Char.isDigit with hD0def
      have hval : normalizePhoneNumber x = String.mk ('+' :: D0) := by
        rw [normalize_eq_core]; exact hspec.2 h7 hnostray
      have hdigD : ∀ c ∈ D0, c.isDigit := by
        rw [hD0def]
        intro c hc
        split at hc
        · exact (List.mem_filter.mp (List.mem_of_mem_drop hc)).2
        · exact (List.mem_filter.mp hc).2
      rcases h with h | h
      · exact absurd h he
      · rw [hval] at h
        have h' : 7 ≤ D0.length ∧ D0.take 2 ≠ ['0', '0'] := by
          simpa using h
        rw [hval]
        have hkept2 : keptChars (String.mk ('+' :: D0)) = '+' :: D0 := by
          unfold keptChars
          rw [show (String.mk ('+' :: D0)).toList = '+' :: D0 from rfl]
          apply List.filter_eq_self.mpr
          intro c hc
          rcases List.mem_cons.mp hc with rfl | hc2
          · simp
          · simp [hdigD c hc2]
        rw [normalize_eq_core, hkept2, normalizeCore_plus_digits D0 hdigD,
          if_neg (by omega), if_neg h'.2]
  · intro x t hket
    have hneq : normalizePhoneNumber t = normalizePhoneNumber x := by
      rw [normalize_eq_core, normalize_eq_core, hket]
    refine ⟨hneq, ?_⟩
    simp only [detectCountryCode, hneq]


/-- Witness for C9 at concrete inputs: a well-formed number is a fixpoint, and
separator noise does not change the detected country. -/
theorem claimC9_witness :
    normalizePhoneNumber (normalizePhoneNumber "+201112223344") =
      normalizePhoneNumber "+201112223344" ∧
    (keptChars "+20 (111) 222-3344" = keptChars "+201112223344" ∧
     normalizePhoneNumber "+20 (111) 222-3344" =
       normalizePhoneNumber "+201112223344" ∧
     detectCountryCode "+20 (111) 222-3344" =
       detectCountryCode "+201112223344") :=
  ⟨claimC9_idempotence_and_stability.1 "+201112223344" (Or.inr (by decide)),
   by decide,
   claimC9_idempotence_and_stability.2 "+201112223344" "+20 (111) 222-3344"
     (by decide)⟩

/-- Counterexample for C9 as stated: `normalize` is not idempotent on
`"0012345"` — one pass gives `"+12345"` (the 7-digit test precedes the `00`
strip), a second pass gives `""`. -/
theorem claimC9_counterexample :
    normalizePhoneNumber "0012345" = "+12345" ∧
    normalizePhoneNumber (normalizePhoneNumber "0012345") = "" ∧
    normalizePhoneNumber (normalizePhoneNumber "0012345") ≠
      normalizePhoneNumber "0012345" := by
  decide

/-! ## Claim C5: reservation allocation -/

/-- In a list whose ids increase along it, `find?` returns the element of
least id among those satisfying the predicate. -/
theorem find?_min_id (p : Number → Bool) :
    ∀ (l : List Number), l.Pairwise (fun a b => a.id < b.id) →
      ∀ a, l.find? p = some a → ∀ m ∈ l, p m → a.id ≤ m.id := by
  intro l
  induction l with
  | nil =>
    intro _ a ha
    simp at ha
  | cons x xs ih =>
    intro hpw a hfind m hm hpm
    rw [List.find?_cons] at hfind
    cases hpx : p x with
    | true =>
      rw [hpx] at hfind
      simp only [Option.some.injEq] at hfind
      subst hfind
      rcases List.mem_cons.mp hm with rfl | hm2
      · exact Nat.le_refl _
      · exact Nat.le_of_lt ((List.pairwise_cons.mp hpw).1 m hm2)
    | false =>
      rw [hpx] at hfind
      rcases List.mem_cons.mp hm with rfl | hm2
      · rw [hpm] at hpx; cases hpx
      · exact ih (List.pairwise_cons.mp hpw).2 a hfind m hm2 hpm

/-- C5: `reserve(user, service, country)` scans the numbers table in id
(insertion) order, so — ids being monotone — it selects the oldest AVAILABLE
Number of that service and country not previously completed by this user,
creates a WAITING_CODE reservation on it (marking the Number RESERVED for
the user), and returns no reservation exactly when no eligible Number
exists. -/
theorem claimC5_reserve_selects_oldest (db : DB) (userId serviceId : Nat)
    (countryCode : String) (timeoutMin now : Nat)
    (hsorted : db.numbers.Pairwise (fun a b => a.id < b.id)) :
    ((reserveNumber db userId serviceId countryCode timeoutMin now).1 = none ↔
      ∀ n ∈ db.numbers,
        ¬reserveEligible db userId serviceId countryCode n) ∧
    (∀ res,
      (reserveNumber db userId serviceId countryCode timeoutMin now).1 =
        some res →
      res.status = .WAITING_CODE ∧
      (reserveNumber db userId serviceId countryCode timeoutMin
        now).2.reservations = db.reservations ++ [res] ∧
      ∃ n ∈ db.numbers, reserveEligible db userId serviceId countryCode n ∧
        res.numberId = n.id ∧
        (∀ m ∈ db.numbers,
          reserveEligible db userId serviceId countryCode m → n.id ≤ m.id) ∧
        ∃ n' ∈ (reserveNumber db userId serviceId countryCode timeoutMin
            now).2.numbers,
          n'.id = n.id ∧ n'.status = .RESERVED ∧
          n'.reservedByUserId = some userId) := by
  cases hf : db.numbers.find? (reserveEligible db userId serviceId countryCode)
    with
  | none =>
    have hnone := List.find?_eq_none.mp hf
    constructor
    · constructor
      · intro _; exact hnone
      · intro _; unfold reserveNumber; rw [hf]
    · intro res hres
      unfold reserveNumber at hres
      rw [hf] at hres
      simp at hres
  | some n =>
    have hpn : reserveEligible db userId serviceId countryCode n :=
      List.find?_some hf
    have hmemn : n ∈ db.numbers := List.mem_of_find?_eq_some hf
    have hkey : reserveNumber db userId serviceId countryCode timeoutMin now =
        (some { id := db.nextReservationId, userId, serviceId,
                numberId := n.id, status := .WAITING_CODE, createdAt := now,
                expiredAt := now + timeoutMin, completedAt := none,
                codeValue := none },
         { db with
           numbers := db.numbers.map (fun m =>
             if m.id = n.id then
               { m with status := .RESERVED,
                        reservedByUserId := some userId,
                        reservedAt := some now,
                        expiresAt := some (now + timeoutMin) }
             else m),
           reservations := db.reservations ++
             [{ id := db.nextReservationId, userId, serviceId,
                numberId := n.id, status := .WAITING_CODE, createdAt := now,
                expiredAt := now + timeoutMin, completedAt := none,
                codeValue := none }] }) := by
      unfold reserveNumber
      rw [hf]
    constructor
    · constructor
      · intro habs
        rw [hkey] at habs
        simp at habs
      · intro hall
        exact absurd hpn (hall n hmemn)
    · intro res hres
      rw [hkey] at hres
      simp only [Option.some.injEq] at hres
      subst hres
      rw [hkey]
      refine ⟨rfl, rfl, n, hmemn, hpn, rfl, ?_, ?_⟩
      · exact find?_min_id _ db.numbers hsorted n hf
      · exact ⟨_, List.mem_map.mpr ⟨n, hmemn, rfl⟩, by simp, by simp,
          by simp⟩

/-- Witness for C5 at a concrete input: in `wDbEmpty` extended with two
AVAILABLE numbers the lower-id one is taken. -/
theorem claimC5_witness :
    ∃ res,
      (reserveNumber wDbReserve 1 1 "+20" 20 0).1 = some res ∧
      res.status = .WAITING_CODE ∧ res.numberId = wNumAvail1.id :=
  ⟨_, rfl,
   ((claimC5_reserve_selects_oldest wDbReserve 1 1 "+20" 20 0
      (by decide)).2 _ rfl).1,
   rfl⟩

/-! ## Claim C6: duplicate submissions (pipeline lemmas) -/

theorem findReservationByLastDigits_spec (db : DB) (ld : String)
    (sid now : Nat) (r : Reservation)
    (h : findReservationByLastDigits db ld sid now = some r) :
    r ∈ db.reservations ∧ r.status = .WAITING_CODE := by
  unfold findReservationByLastDigits at h
  have hmem := List.mem_of_find?_eq_some h
  have hpred := (List.mem_filter.mp hmem).2
  simp only [Bool.and_eq_true, beq_iff_eq] at hpred
  exact ⟨(List.mem_filter.mp hmem).1, hpred.1.2⟩

theorem resolveReservation_spec (db : DB) (nObj : Number) (msid : Nat)
    (number : String) (now : Nat) (r : Reservation) (nOpt : Option Number)
    (hobj : nObj ∈ db.numbers)
    (h : resolveReservation db nObj msid number now = some (r, nOpt)) :
    r ∈ db.reservations ∧ r.status = .WAITING_CODE ∧
    ∀ m, nOpt = some m → m ∈ db.numbers ∧ m.id = r.numberId := by
  unfold resolveReservation at h
  cases hf : db.reservations.find? (fun x =>
      x.numberId == nObj.id && x.status == ReservationStatus.WAITING_CODE)
    with
  | some r0 =>
    rw [hf] at h
    simp only [Option.some.injEq, Prod.mk.injEq] at h
    obtain ⟨hr, hn⟩ := h
    subst hr
    have hmem := List.mem_of_find?_eq_some hf
    have hpred := List.find?_some hf
    simp only [Bool.and_eq_true, beq_iff_eq] at hpred
    refine ⟨hmem, hpred.2, ?_⟩
    intro m hm
    rw [← hn] at hm
    simp only [Option.some.injEq] at hm
    subst hm
    exact ⟨hobj, hpred.1.symm⟩
  | none =>
    rw [hf] at h
    have h' : (match findReservationByLastDigits db
        (extractLastDigits number 3) msid now with
      | some r1 => some (r1, db.numbers.find? (fun n => n.id == r1.numberId))
      | none => none) = some (r, nOpt) := h
    cases hfr : findReservationByLastDigits db
        (extractLastDigits number 3) msid now with
    | some r0 =>
      rw [hfr] at h'
      simp only [Option.some.injEq, Prod.mk.injEq] at h'
      obtain ⟨hr, hn⟩ := h'
      subst hr
      have hspec := findReservationByLastDigits_spec db _ msid now r0 hfr
      refine ⟨hspec.1, hspec.2, ?_⟩
      intro m hm
      rw [← hn] at hm
      have hpred := List.find?_some hm
      have hmem := List.mem_of_find?_eq_some hm
      simp only [beq_iff_eq] at hpred
      exact ⟨hmem, hpred⟩
    | none =>
      rw [hfr] at h'
      cases h' 

theorem maskedSearchAux_spec (db : DB) (ld : String) (now : Nat) :
    ∀ (gs : List ServiceGroup) (acc : Option (Reservation × Nat))
      (r : Reservation) (sid : Nat) (nObj : Number),
      maskedSearchAux db ld now acc gs = (some (r, sid), some nObj) →
      r ∈ db.reservations ∧ r.status = .WAITING_CODE ∧
      nObj ∈ db.numbers ∧ nObj.id = r.numberId := by
  intro gs
  induction gs with
  | nil =>
    intro acc r sid nObj h
    simp only [maskedSearchAux, Prod.mk.injEq] at h
    cases h.2
  | cons sg rest ih =>
    intro acc r sid nObj h
    unfold maskedSearchAux at h
    cases hfr : findReservationByLastDigits db ld sg.serviceId now with
    | some r0 =>
      rw [hfr] at h
      have h' : (match List.find? (fun n => n.id == r0.numberId) db.numbers
          with
        | some numberObj => (some (r0, sg.serviceId), some numberObj)
        | none => maskedSearchAux db ld now (some (r0, sg.serviceId)) rest) =
          (some (r, sid), some nObj) := h
      cases hfn : db.numbers.find? (fun n => n.id == r0.numberId) with
      | some n0 =>
        rw [hfn] at h'
        simp only [Prod.mk.injEq, Option.some.injEq, Prod.mk.injEq] at h'
        obtain ⟨⟨hr, -⟩, hn⟩ := h'
        have hspec := findReservationByLastDigits_spec db ld sg.serviceId now
          r0 hfr
        have hpred := List.find?_some hfn
        simp only [beq_iff_eq] at hpred
        rw [← hr, ← hn]
        exact ⟨hspec.1, hspec.2, List.mem_of_find?_eq_some hfn, hpred⟩
      | none =>
        rw [hfn] at h'
        exact ih _ r sid nObj h'
    | none =>
      rw [hfr] at h
      exact ih _ r sid nObj h


theorem markProviderMessage_fields (db : DB) (pmId : Nat) (st : MessageStatus) :
    (markProviderMessage db pmId st).reservations = db.reservations ∧
    (markProviderMessage db pmId st).numbers = db.numbers ∧
    (markProviderMessage db pmId st).users = db.users ∧
    (markProviderMessage db pmId st).transactions = db.transactions :=
  ⟨rfl, rfl, rfl, rfl⟩

/-- Case analysis of the in-line completion step: it leaves reservations and
numbers unchanged, or expires the bound reservation only, or completes it and
marks its number row USED. -/
theorem completeInline_cases (db : DB) (pmId sgsid : Nat)
    (g sndr m : String) (r : Reservation) (nOpt : Option Number)
    (code : String) (now : Nat) :
    ((completeInline db pmId sgsid g sndr m r nOpt code now).reservations =
        db.reservations ∧
     (completeInline db pmId sgsid g sndr m r nOpt code now).numbers =
        db.numbers) ∨
    ((completeInline db pmId sgsid g sndr m r nOpt code now).reservations =
        db.reservations.map (fun x =>
          if x.id = r.id then { x with status := .EXPIRED } else x) ∧
     (completeInline db pmId sgsid g sndr m r nOpt code now).numbers =
        db.numbers) ∨
    (∃ nObj, nOpt = some nObj ∧
     (completeInline db pmId sgsid g sndr m r nOpt code now).reservations =
        db.reservations.map (fun x =>
          if x.id = r.id then
            { x with status := .COMPLETED, codeValue := some code,
                     completedAt := some now }
          else x) ∧
     (completeInline db pmId sgsid g sndr m r nOpt code now).numbers =
        db.numbers.map (fun x =>
          if x.id = nObj.id then
            { x with status := .USED, codeReceivedAt := some now }
          else x)) := by
  unfold completeInline
  cases hu : db.users.find? (fun u => u.id == r.userId) with
  | none =>
    cases hs : db.services.find? (fun s => s.id == r.serviceId) with
    | none => exact Or.inl ⟨rfl, rfl⟩
    | some s => exact Or.inl ⟨rfl, rfl⟩
  | some u =>
    cases hs : db.services.find? (fun s => s.id == r.serviceId) with
    | none => exact Or.inl ⟨rfl, rfl⟩
    | some s =>
      cases nOpt with
      | none => exact Or.inl ⟨rfl, rfl⟩
      | some nObj =>
        by_cases hb : priceOf nObj s ≤ u.balance
        · refine Or.inr (Or.inr ⟨nObj, rfl, ?_, ?_⟩) <;>
            simp only [if_pos hb]
        · refine Or.inr (Or.inl ⟨?_, ?_⟩) <;>
            simp only [if_neg hb] <;> rfl

/-- Case analysis of `correlateAndComplete`: either reservations and numbers
pass through unchanged, or one WAITING_CODE reservation of the store is
expired, or one WAITING_CODE reservation is completed and its number row
(present in the store) is marked USED. -/
theorem correlateAndComplete_cases (db1 : DB) (pmId sgsid : Nat)
    (g sndr m : String) (number2 code1 : Option String) (now : Nat)
    (dbOut : DB)
    (hout : dbOut = correlateAndComplete db1 pmId sgsid g sndr m number2
      code1 now) :
    (dbOut.reservations = db1.reservations ∧ dbOut.numbers = db1.numbers) ∨
    (∃ rm ∈ db1.reservations, rm.status = .WAITING_CODE ∧
      ((dbOut.reservations = db1.reservations.map (fun x =>
          if x.id = rm.id then { x with status := .EXPIRED } else x) ∧
        dbOut.numbers = db1.numbers) ∨
       (∃ nObj ∈ db1.numbers, nObj.id = rm.numberId ∧
        dbOut.reservations = db1.reservations.map (fun x =>
          if x.id = rm.id then
            { x with status := .COMPLETED,
                     codeValue := some (code1.getD ""),
                     completedAt := some now }
          else x) ∧
        dbOut.numbers = db1.numbers.map (fun x =>
          if x.id = nObj.id then
            { x with status := .USED, codeReceivedAt := some now }
          else x)))) := by
  unfold correlateAndComplete at hout
  by_cases hfb : (strFalsy number2 || strFalsy code1) = true
  · rw [if_pos hfb] at hout
    exact Or.inl ⟨by rw [hout]; rfl, by rw [hout]; rfl⟩
  · rw [if_neg hfb] at hout
    cases hfound : (db1.serviceGroups.filter (fun sg =>
        sg.groupChatId == g && sg.active)).findSome? (fun sg =>
        match db1.numbers.find? (fun n =>
            n.phoneNumber == number2.getD "" &&
            n.serviceId == sg.serviceId) with
        | some n => some (n, sg.serviceId)
        | none => none) with
    | some pair =>
      obtain ⟨numberObj, msid⟩ := pair
      rw [hfound] at hout
      have hobj : numberObj ∈ db1.numbers := by
        obtain ⟨a, -, hfa⟩ := List.exists_of_findSome?_eq_some hfound
        cases hfn : db1.numbers.find? (fun n =>
            n.phoneNumber == number2.getD "" && n.serviceId == a.serviceId)
          with
        | some n0 =>
          rw [hfn] at hfa
          simp only [Option.some.injEq, Prod.mk.injEq] at hfa
          rw [← hfa.1]
          exact List.mem_of_find?_eq_some hfn
        | none => rw [hfn] at hfa; cases hfa
      have hout2 : dbOut = (match resolveReservation db1 numberObj msid
          (number2.getD "") now with
        | none => markProviderMessage db1 pmId MessageStatus.ORPHAN
        | some (reservation, numberObjOpt) =>
          completeInline db1 pmId sgsid g sndr m reservation numberObjOpt
            (code1.getD "") now) := hout
      clear hout
      cases hres : resolveReservation db1 numberObj msid (number2.getD "") now
        with
      | none =>
        rw [hres] at hout2
        exact Or.inl ⟨by rw [hout2]; rfl, by rw [hout2]; rfl⟩
      | some rpair =>
        obtain ⟨reservation, numberObjOpt⟩ := rpair
        rw [hres] at hout2
        have hout : dbOut = completeInline db1 pmId sgsid g sndr m reservation
          numberObjOpt (code1.getD "") now := hout2
        have hspec := resolveReservation_spec db1 numberObj msid
          (number2.getD "") now reservation numberObjOpt hobj hres
        rcases completeInline_cases db1 pmId sgsid g sndr m reservation
            numberObjOpt (code1.getD "") now with
          ⟨h1, h2⟩ | ⟨h1, h2⟩ | ⟨nO, hnO, h1, h2⟩
        · rw [← hout] at h1 h2
          exact Or.inl ⟨h1, h2⟩
        · rw [← hout] at h1 h2
          exact Or.inr ⟨reservation, hspec.1, hspec.2.1, Or.inl ⟨h1, h2⟩⟩
        · rw [← hout] at h1 h2
          obtain ⟨hmem, hid⟩ := hspec.2.2 nO hnO
          exact Or.inr ⟨reservation, hspec.1, hspec.2.1,
            Or.inr ⟨nO, hmem, hid, h1, h2⟩⟩
    | none =>
      rw [hfound] at hout
      have hout2 : dbOut = (match extractLastThreeDigitsFromMaskedNumber m
          with
        | none => markProviderMessage db1 pmId MessageStatus.ORPHAN
        | some extractedLastDigits =>
          match maskedSearchAux db1 extractedLastDigits now none
              (db1.serviceGroups.filter (fun sg =>
                sg.groupChatId == g && sg.active)) with
          | (none, _) => markProviderMessage db1 pmId MessageStatus.ORPHAN
          | (some _, none) => db1
          | (some (reservation, _), some numberObj) =>
            completeInline db1 pmId sgsid g sndr m reservation
              (some numberObj) (code1.getD "") now) := hout
      clear hout
      cases hmask : extractLastThreeDigitsFromMaskedNumber m with
      | none =>
        rw [hmask] at hout2
        exact Or.inl ⟨by rw [hout2]; rfl, by rw [hout2]; rfl⟩
      | some extractedLastDigits =>
        rw [hmask] at hout2
        have hout3 : dbOut = (match maskedSearchAux db1 extractedLastDigits
            now none (db1.serviceGroups.filter (fun sg =>
              sg.groupChatId == g && sg.active)) with
          | (none, _) => markProviderMessage db1 pmId MessageStatus.ORPHAN
          | (some _, none) => db1
          | (some (reservation, _), some numberObj) =>
            completeInline db1 pmId sgsid g sndr m reservation
              (some numberObj) (code1.getD "") now) := hout2
        clear hout2
        cases hms : maskedSearchAux db1 extractedLastDigits now none
            (db1.serviceGroups.filter (fun sg =>
              sg.groupChatId == g && sg.active)) with
        | mk fst snd =>
          rw [hms] at hout3
          cases fst with
          | none =>
            have hout : dbOut = markProviderMessage db1 pmId
              MessageStatus.ORPHAN := hout3
            exact Or.inl ⟨by rw [hout]; rfl, by rw [hout]; rfl⟩
          | some rp =>
            obtain ⟨reservation, msid⟩ := rp
            cases snd with
            | none =>
              have hout : dbOut = db1 := hout3
              exact Or.inl ⟨by rw [hout], by rw [hout]⟩
            | some numberObj =>
              have hout : dbOut = completeInline db1 pmId sgsid g sndr m
                reservation (some numberObj) (code1.getD "") now := hout3
              have hspec := maskedSearchAux_spec db1 extractedLastDigits now
                _ none reservation msid numberObj hms
              rcases completeInline_cases db1 pmId sgsid g sndr m reservation
                  (some numberObj) (code1.getD "") now with
                ⟨h1, h2⟩ | ⟨h1, h2⟩ | ⟨nO, hnO, h1, h2⟩
              · rw [← hout] at h1 h2
                exact Or.inl ⟨h1, h2⟩
              · rw [← hout] at h1 h2
                exact Or.inr ⟨reservation, hspec.1, hspec.2.1,
                  Or.inl ⟨h1, h2⟩⟩
              · rw [← hout] at h1 h2
                simp only [Option.some.injEq] at hnO
                subst hnO
                exact Or.inr ⟨reservation, hspec.1, hspec.2.1,
                  Or.inr ⟨numberObj, hspec.2.2.1, hspec.2.2.2, h1, h2⟩⟩

theorem processIncoming_cases (db : DB) (g sndr m : String) (now : Nat)
    (dbOut : DB)
    (hout : dbOut = processIncomingGroupMessage db g sndr m now) :
    (dbOut.reservations = db.reservations ∧ dbOut.numbers = db.numbers) ∨
    (∃ rm ∈ db.reservations, rm.status = .WAITING_CODE ∧
      ((dbOut.reservations = db.reservations.map (fun x =>
          if x.id = rm.id then { x with status := .EXPIRED } else x) ∧
        dbOut.numbers = db.numbers) ∨
       (∃ cv : String, ∃ nObj ∈ db.numbers, nObj.id = rm.numberId ∧
        dbOut.reservations = db.reservations.map (fun x =>
          if x.id = rm.id then
            { x with status := .COMPLETED, codeValue := some cv,
                     completedAt := some now }
          else x) ∧
        dbOut.numbers = db.numbers.map (fun x =>
          if x.id = nObj.id then
            { x with status := .USED, codeReceivedAt := some now }
          else x)))) := by
  unfold processIncomingGroupMessage at hout
  cases hsg : db.serviceGroups.find? (fun sg =>
      sg.groupChatId == g && sg.active) with
  | none =>
    rw [hsg] at hout
    exact Or.inl ⟨by rw [hout], by rw [hout]⟩
  | some serviceGroup =>
    rw [hsg] at hout
    rcases correlateAndComplete_cases _ _ _ _ _ _ _ _ _ _ hout with
      ⟨h1, h2⟩ | ⟨rm, hmem, hst, ⟨h1, h2⟩ | ⟨nObj, hnmem, hnid, h1, h2⟩⟩
    · exact Or.inl ⟨h1, h2⟩
    · exact Or.inr ⟨rm, hmem, hst, Or.inl ⟨h1, h2⟩⟩
    · exact Or.inr ⟨rm, hmem, hst, Or.inr ⟨_, nObj, hnmem, hnid, h1, h2⟩⟩

/-- `markProviderMessage` only rewrites rows, never changing the number of
ProviderMessage rows. -/
theorem markProviderMessage_pm_length (db : DB) (pmId : Nat)
    (st : MessageStatus) :
    (markProviderMessage db pmId st).providerMessages.length =
      db.providerMessages.length := by
  simp [markProviderMessage]

/-- The in-line completion never inserts or deletes ProviderMessage rows. -/
theorem completeInline_pm_length (db : DB) (pmId sgsid : Nat)
    (g sndr m : String) (r : Reservation) (nOpt : Option Number)
    (code : String) (now : Nat) :
    (completeInline db pmId sgsid g sndr m r nOpt code now
      ).providerMessages.length = db.providerMessages.length := by
  unfold completeInline
  cases hu : db.users.find? (fun u => u.id == r.userId) with
  | none =>
    cases hs : db.services.find? (fun s => s.id == r.serviceId) <;>
      simp [markProviderMessage]
  | some u =>
    cases hs : db.services.find? (fun s => s.id == r.serviceId) with
    | none => simp [markProviderMessage]
    | some s =>
      cases nOpt with
      | none => simp [markProviderMessage]
      | some nObj =>
        by_cases hb : priceOf nObj s ≤ u.balance
        · simp [hb]
        · simp [hb, markProviderMessage]

/-- The correlation half never inserts or deletes ProviderMessage rows. -/
theorem correlateAndComplete_pm_length (db1 : DB) (pmId sgsid : Nat)
    (g sndr m : String) (number2 code1 : Option String) (now : Nat) :
    (correlateAndComplete db1 pmId sgsid g sndr m number2 code1 now
      ).providerMessages.length = db1.providerMessages.length := by
  unfold correlateAndComplete
  split
  · simp [markProviderMessage]
  · split
    · split
      · simp [markProviderMessage]
      · exact completeInline_pm_length ..
    · split
      · simp [markProviderMessage]
      · split
        · simp [markProviderMessage]
        · rfl
        · exact completeInline_pm_length ..

/-- Each submission appends exactly one ProviderMessage row when an active
group matches the chat, and none otherwise: there is no duplicate skip. -/
theorem processIncoming_pm_length (db : DB) (g sndr m : String) (now : Nat) :
    (processIncomingGroupMessage db g sndr m now).providerMessages.length =
      db.providerMessages.length +
        (if (db.serviceGroups.find? (fun sg =>
            sg.groupChatId == g && sg.active)).isSome then 1 else 0) := by
  unfold processIncomingGroupMessage
  cases hsg : db.serviceGroups.find? (fun sg =>
      sg.groupChatId == g && sg.active) with
  | none => simp
  | some sg =>
    simp only [Option.isSome_some, if_true]
    rw [correlateAndComplete_pm_length]
    simp

/-- C6: There is no duplicate detection: resubmitting an identical inbound
message is recorded as a fresh ProviderMessage row and fully reprocessed,
never skipped.  What does hold per submission: exactly one ProviderMessage
row is appended when an active group matches the chat (none otherwise), and a
single submission makes at most one reservation state transition — either
reservations and numbers pass through unchanged, or exactly one WAITING_CODE
reservation is expired or completed (its number marked USED).  Two identical
submissions can therefore produce two transitions, one each. -/
theorem claimC6_resubmission_reprocessed (db : DB) (g sndr m : String)
    (now : Nat) :
    ((processIncomingGroupMessage db g sndr m now).providerMessages.length =
      db.providerMessages.length +
        (if (db.serviceGroups.find? (fun sg =>
            sg.groupChatId == g && sg.active)).isSome then 1 else 0)) ∧
    (((processIncomingGroupMessage db g sndr m now).reservations =
          db.reservations ∧
       (processIncomingGroupMessage db g sndr m now).numbers = db.numbers) ∨
     (∃ rm ∈ db.reservations, rm.status = .WAITING_CODE ∧
       (((processIncomingGroupMessage db g sndr m now).reservations =
            db.reservations.map (fun x =>
              if x.id = rm.id then { x with status := .EXPIRED } else x) ∧
          (processIncomingGroupMessage db g sndr m now).numbers =
            db.numbers) ∨
        (∃ cv : String, ∃ nObj ∈ db.numbers, nObj.id = rm.numberId ∧
          (processIncomingGroupMessage db g sndr m now).reservations =
            db.reservations.map (fun x =>
              if x.id = rm.id then
                { x with status := .COMPLETED, codeValue := some cv,
                         completedAt := some now }
              else x) ∧
          (processIncomingGroupMessage db g sndr m now).numbers =
            db.numbers.map (fun x =>
              if x.id = nObj.id then
                { x with status := .USED, codeReceivedAt := some now }
              else x))))) :=
  ⟨processIncoming_pm_length db g sndr m now,
   processIncoming_cases db g sndr m now _ rfl⟩

/-- Counterexample to C6 as claimed: submitting the identical message
`wDupMessage` to the same group twice is NOT a no-op.  The first submission
completes reservation 1; the second is reprocessed in full and, via the
last-digits fallback, completes the DIFFERENT reservation 2 — two state
transitions in total, two PURCHASE transactions and two recorded (and both
processed) ProviderMessage rows. -/
theorem claimC6_counterexample :
    ((processIncomingGroupMessage wDbDup "g" "s" wDupMessage 10
        ).reservations.filter
      (fun r => r.status == ReservationStatus.COMPLETED)).length = 1 ∧
    ((processIncomingGroupMessage
        (processIncomingGroupMessage wDbDup "g" "s" wDupMessage 10)
        "g" "s" wDupMessage 10).reservations.filter
      (fun r => r.status == ReservationStatus.COMPLETED)).length = 2 ∧
    (processIncomingGroupMessage
        (processIncomingGroupMessage wDbDup "g" "s" wDupMessage 10)
        "g" "s" wDupMessage 10).transactions.length = 2 ∧
    (processIncomingGroupMessage
        (processIncomingGroupMessage wDbDup "g" "s" wDupMessage 10)
        "g" "s" wDupMessage 10).providerMessages.length = 2 := by
  decide

/-! ## Claim C4: retirement and DELETED permanence -/

/-- Store invariant: every number row of a WAITING_CODE reservation is
RESERVED. -/
def waitingReserved (db : DB) : Prop :=
  ∀ r ∈ db.reservations, r.status = ReservationStatus.WAITING_CODE →
    ∀ n ∈ db.numbers, n.id = r.numberId → n.status = NumberStatus.RESERVED

/-- Store invariant: no two distinct WAITING_CODE reservations share a
number. -/
def waitingUnique (db : DB) : Prop :=
  ∀ r ∈ db.reservations, ∀ r' ∈ db.reservations,
    r.status = ReservationStatus.WAITING_CODE →
    r'.status = ReservationStatus.WAITING_CODE →
    r.numberId = r'.numberId → r.id = r'.id

/-- Store invariant: number-row ids are unique (the `id` column is a primary
key). -/
def nodupNumberIds (db : DB) : Prop :=
  (db.numbers.map (fun n => n.id)).Nodup

/-- The conjunction of the store invariants established by the schema and
maintained by the operations. -/
def StoreInv (db : DB) : Prop :=
  waitingReserved db ∧ waitingUnique db ∧ nodupNumberIds db

/-- The state-changing operations of the bot considered for DELETED
permanence.  `change_country_handler` is deliberately absent: it carries no
WAITING_CODE guard and can release a sweep-DELETED number back to
AVAILABLE. -/
inductive CoreOp where
  | reserve (userId serviceId : Nat) (countryCode : String)
      (timeoutMin now : Nat)
  | complete (reservationId : Nat) (code : String) (now : Nat)
  | incoming (groupChatId senderId messageText : String) (now : Nat)
  | expirySweep (now : Nat)
  | cleanupSweep (now : Nat)
  | changeNumber (reservationId now : Nat)

/-- One operation applied to the store. -/
def stepOp (db : DB) : CoreOp → DB
  | .reserve u s c t n => (reserveNumber db u s c t n).2
  | .complete rid code n => (completeReservationAtomic db rid code n).2
  | .incoming g sndr m n => processIncomingGroupMessage db g sndr m n
  | .expirySweep n => checkExpiredReservations db n
  | .cleanupSweep n => cleanupExpiredReservations db n
  | .changeNumber rid n => changeNumberHandler db rid n

/-- A sequence of operations applied in order. -/
def runOps (db : DB) (ops : List CoreOp) : DB :=
  ops.foldl stepOp db

/-- Closed form of a sweep fold's numbers: each row hit by some processed
reservation is released once (the release being idempotent), the rest pass
through. -/
theorem foldl_sweepStep_numbers_eq (f : Number → Number)
    (hfid : ∀ m, (f m).id = m.id) (hfidem : ∀ m, f (f m) = f m) :
    ∀ (L : List Reservation) (db : DB),
      (L.foldl (sweepStep f) db).numbers =
        db.numbers.map (fun n =>
          if L.any (fun r => n.id == r.numberId) then f n else n) := by
  intro L
  induction L with
  | nil =>
    intro db
    simp
  | cons r L ih =>
    intro db
    rw [List.foldl_cons, ih]
    have hstep : (sweepStep f db r).numbers =
        db.numbers.map (fun n => if n.id = r.numberId then f n else n) := rfl
    rw [hstep, List.map_map]
    apply List.map_congr_left
    intro n _
    by_cases h1 : n.id = r.numberId
    · by_cases h2 : L.any (fun r' => n.id == r'.numberId) = true
      · simp [Function.comp, h1, h2, hfid, hfidem]
      · simp [Function.comp, h1, h2, hfid, hfidem]
    · by_cases h2 : L.any (fun r' => n.id == r'.numberId) = true
      · simp [Function.comp, h1, h2]
      · simp [Function.comp, h1, h2]

/-- Closed form of a sweep fold's reservations: each row whose id matches a
processed reservation is marked EXPIRED, the rest pass through. -/
theorem foldl_sweepStep_reservations_eq (f : Number → Number) :
    ∀ (L : List Reservation) (db : DB),
      (L.foldl (sweepStep f) db).reservations =
        db.reservations.map (fun x =>
          if L.any (fun r => x.id == r.id) then { x with status := .EXPIRED }
          else x) := by
  intro L
  induction L with
  | nil =>
    intro db
    simp
  | cons r L ih =>
    intro db
    rw [List.foldl_cons, ih]
    have hstep : (sweepStep f db r).reservations =
        db.reservations.map (fun x =>
          if x.id = r.id then { x with status := .EXPIRED } else x) := rfl
    rw [hstep, List.map_map]
    apply List.map_congr_left
    intro x _
    by_cases h1 : x.id = r.id
    · by_cases h2 : L.any (fun r' => x.id == r'.id) = true
      · simp [Function.comp, h1, h2]
      · simp [Function.comp, h1, h2]
    · by_cases h2 : L.any (fun r' => x.id == r'.id) = true
      · simp [Function.comp, h1, h2]
      · simp [Function.comp, h1, h2]

/-- Case analysis of `complete_reservation_atomic`: the store passes through
unchanged, or the found WAITING_CODE reservation is expired (insufficient
balance) with numbers untouched, or it is completed and all rows of its
number are stamped with some new status. -/
theorem completeReservationAtomic_cases (db : DB) (resId : Nat)
    (code : String) (now : Nat) :
    (completeReservationAtomic db resId code now).2 = db ∨
    (∃ r0 ∈ db.reservations, r0.status = .WAITING_CODE ∧
      (completeReservationAtomic db resId code now).2.reservations =
        db.reservations.map (fun x =>
          if x.id = r0.id then { x with status := .EXPIRED } else x) ∧
      (completeReservationAtomic db resId code now).2.numbers = db.numbers) ∨
    (∃ r0 ∈ db.reservations, r0.status = .WAITING_CODE ∧ ∃ st,
      (completeReservationAtomic db resId code now).2.reservations =
        db.reservations.map (fun x =>
          if x.id = r0.id then
            { x with status := .COMPLETED, codeValue := some code,
                     completedAt := some now }
          else x) ∧
      (completeReservationAtomic db resId code now).2.numbers =
        db.numbers.map (fun n =>
          if n.id = r0.numberId then
            { n with status := st, codeReceivedAt := some now,
                     usageCount := n.usageCount + 1 }
          else n)) := by
  unfold completeReservationAtomic
  split
  · exact Or.inl rfl
  · rename_i r0 hr
    have hmem : r0 ∈ db.reservations := List.mem_of_find?_eq_some hr
    split
    · exact Or.inl rfl
    · rename_i hstn
      have hst : r0.status = ReservationStatus.WAITING_CODE := not_not.mp hstn
      split
      · rename_i user service number hu hs hn
        have hnid : number.id = r0.numberId := by
          simpa using List.find?_some hn
        dsimp only
        split
        · exact Or.inr (Or.inl ⟨r0, hmem, hst, rfl, rfl⟩)
        · refine Or.inr (Or.inr ⟨r0, hmem, hst,
            (if 3 ≤ distinctCompletedUsers
                (db.reservations.map (fun r =>
                  if r.id = r0.id then
                    { r with status := ReservationStatus.COMPLETED,
                             codeValue := some code,
                             completedAt := some now }
                  else r)) number.id
              then NumberStatus.DELETED else NumberStatus.USED),
            rfl, ?_⟩)
          rw [show r0.numberId = number.id from hnid.symm]
      · exact Or.inl rfl

/-- A sweep fold over reservations that are WAITING_CODE rows of the store
preserves the store invariant and leaves every DELETED number row untouched
(by `waitingReserved`, no DELETED row can be the number of a WAITING_CODE
reservation). -/
theorem sweepFold_preserve (f : Number → Number)
    (hfid : ∀ m, (f m).id = m.id) (hfidem : ∀ m, f (f m) = f m)
    (db : DB) (L : List Reservation)
    (hLmem : ∀ r ∈ L, r ∈ db.reservations)
    (hLw : ∀ r ∈ L, r.status = ReservationStatus.WAITING_CODE)
    (hinv : StoreInv db) :
    StoreInv (L.foldl (sweepStep f) db) ∧
    ∀ n ∈ db.numbers, n.status = NumberStatus.DELETED →
      n ∈ (L.foldl (sweepStep f) db).numbers := by
  obtain ⟨hwr, hwu, hnd⟩ := hinv
  have hN := foldl_sweepStep_numbers_eq f hfid hfidem L db
  have hR := foldl_sweepStep_reservations_eq f L db
  have hnothit : ∀ n ∈ db.numbers, n.status = NumberStatus.DELETED →
      (L.any (fun r => n.id == r.numberId)) = false := by
    intro n hn hdel
    by_contra hany
    rw [Bool.not_eq_false, List.any_eq_true] at hany
    obtain ⟨r, hrL, hbeq⟩ := hany
    have hid : n.id = r.numberId := by simpa using hbeq
    have hres := hwr r (hLmem r hrL) (hLw r hrL) n hn hid
    rw [hdel] at hres
    exact absurd hres (by decide)
  refine ⟨⟨?_, ?_, ?_⟩, ?_⟩
  · intro r' hr' hst' n' hn' hid'
    rw [hR] at hr'
    obtain ⟨x, hx, hxe⟩ := List.mem_map.mp hr'
    by_cases hhit : (L.any (fun r => x.id == r.id)) = true
    · rw [if_pos hhit] at hxe
      rw [← hxe] at hst'
      simp at hst'
    · rw [if_neg hhit] at hxe
      subst hxe
      rw [hN] at hn'
      obtain ⟨m, hm, hme⟩ := List.mem_map.mp hn'
      by_cases hmhit : (L.any (fun r => m.id == r.numberId)) = true
      · exfalso
        obtain ⟨rr, hrrL, hrrb⟩ := List.any_eq_true.mp hmhit
        have hmid : m.id = rr.numberId := by simpa using hrrb
        have hnid2 : n'.id = m.id := by
          rw [← hme, if_pos hmhit, hfid]
        have hxr : x.numberId = rr.numberId := by
          rw [← hid', hnid2, hmid]
        have hxid : x.id = rr.id :=
          hwu x hx rr (hLmem rr hrrL) hst' (hLw rr hrrL) hxr
        exact hhit (List.any_eq_true.mpr ⟨rr, hrrL, by simp [hxid]⟩)
      · rw [if_neg hmhit] at hme
        subst hme
        exact hwr x hx hst' m hm hid'
  · intro r1 h1 r2 h2 hw1 hw2 hnid2
    rw [hR] at h1 h2
    obtain ⟨x1, hx1, he1⟩ := List.mem_map.mp h1
    obtain ⟨x2, hx2, he2⟩ := List.mem_map.mp h2
    by_cases hh1 : (L.any (fun r => x1.id == r.id)) = true
    · rw [if_pos hh1] at he1
      rw [← he1] at hw1
      simp at hw1
    · rw [if_neg hh1] at he1
      subst he1
      by_cases hh2 : (L.any (fun r => x2.id == r.id)) = true
      · rw [if_pos hh2] at he2
        rw [← he2] at hw2
        simp at hw2
      · rw [if_neg hh2] at he2
        subst he2
        exact hwu x1 hx1 x2 hx2 hw1 hw2 hnid2
  · show ((L.foldl (sweepStep f) db).numbers.map (fun n => n.id)).Nodup
    rw [hN, List.map_map]
    have heq : db.numbers.map ((fun n => n.id) ∘ (fun n =>
        if L.any (fun r => n.id == r.numberId) then f n else n)) =
        db.numbers.map (fun n => n.id) := by
      apply List.map_congr_left
      intro n _
      by_cases hh : (L.any (fun r => n.id == r.numberId)) = true
      · simp [Function.comp, hh, hfid]
      · simp [Function.comp, hh]
    rw [heq]
    exact hnd
  · intro n hn hdel
    rw [hN]
    refine List.mem_map.mpr ⟨n, hn, ?_⟩
    simp [hnothit n hn hdel]

/-- The ~30s expiry sweep preserves the invariant and every DELETED row. -/
theorem checkExpired_preserve (db : DB) (now : Nat) (hinv : StoreInv db) :
    StoreInv (checkExpiredReservations db now) ∧
    ∀ n ∈ db.numbers, n.status = NumberStatus.DELETED →
      n ∈ (checkExpiredReservations db now).numbers := by
  have hkey : checkExpiredReservations db now =
      (db.reservations.filter (fun r =>
        r.status == ReservationStatus.WAITING_CODE &&
        decide (r.expiredAt < now))).foldl
        (sweepStep releaseNumberExpired) db := rfl
  rw [hkey]
  refine sweepFold_preserve releaseNumberExpired releaseNumberExpired_id
    releaseNumberExpired_idem db _ ?_ ?_ hinv
  · intro r hr
    exact (List.mem_filter.mp hr).1
  · intro r hr
    have := (List.mem_filter.mp hr).2
    simp only [Bool.and_eq_true, beq_iff_eq] at this
    exact this.1

/-- The retention-job sweep preserves the invariant and every DELETED row. -/
theorem cleanup_preserve (db : DB) (now : Nat) (hinv : StoreInv db) :
    StoreInv (cleanupExpiredReservations db now) ∧
    ∀ n ∈ db.numbers, n.status = NumberStatus.DELETED →
      n ∈ (cleanupExpiredReservations db now).numbers := by
  have hkey : cleanupExpiredReservations db now =
      (db.reservations.filter (fun r =>
        r.status == ReservationStatus.WAITING_CODE &&
        decide (r.expiredAt < now))).foldl
        (sweepStep releaseNumberCleanup) db := rfl
  rw [hkey]
  refine sweepFold_preserve releaseNumberCleanup releaseNumberCleanup_id
    releaseNumberCleanup_idem db _ ?_ ?_ hinv
  · intro r hr
    exact (List.mem_filter.mp hr).1
  · intro r hr
    have := (List.mem_filter.mp hr).2
    simp only [Bool.and_eq_true, beq_iff_eq] at this
    exact this.1

/-- `complete_reservation_atomic` preserves the store invariant and every
DELETED number row. -/
theorem completeAtomic_preserve (db : DB) (resId : Nat) (code : String)
    (now : Nat) (hinv : StoreInv db) :
    StoreInv (completeReservationAtomic db resId code now).2 ∧
    ∀ n ∈ db.numbers, n.status = NumberStatus.DELETED →
      n ∈ (completeReservationAtomic db resId code now).2.numbers := by
  obtain ⟨hwr, hwu, hnd⟩ := hinv
  rcases completeReservationAtomic_cases db resId code now with
    heq | ⟨r0, hmem, hst, hresv, hnum⟩ | ⟨r0, hmem, hst, st, hresv, hnum⟩
  · rw [heq]
    exact ⟨⟨hwr, hwu, hnd⟩, fun n hn _ => hn⟩
  · refine ⟨⟨?_, ?_, ?_⟩, ?_⟩
    · intro r' hr' hst' n' hn' hid'
      rw [hresv] at hr'
      obtain ⟨x, hx, hxe⟩ := List.mem_map.mp hr'
      by_cases hc : x.id = r0.id
      · rw [if_pos hc] at hxe
        rw [← hxe] at hst'
        simp at hst'
      · rw [if_neg hc] at hxe
        subst hxe
        rw [hnum] at hn'
        exact hwr x hx hst' n' hn' hid'
    · intro r1 h1 r2 h2 hw1 hw2 hnid2
      rw [hresv] at h1 h2
      obtain ⟨x1, hx1, he1⟩ := List.mem_map.mp h1
      obtain ⟨x2, hx2, he2⟩ := List.mem_map.mp h2
      by_cases hc1 : x1.id = r0.id
      · rw [if_pos hc1] at he1
        rw [← he1] at hw1
        simp at hw1
      · rw [if_neg hc1] at he1
        subst he1
        by_cases hc2 : x2.id = r0.id
        · rw [if_pos hc2] at he2
          rw [← he2] at hw2
          simp at hw2
        · rw [if_neg hc2] at he2
          subst he2
          exact hwu x1 hx1 x2 hx2 hw1 hw2 hnid2
    · show ((completeReservationAtomic db resId code now
          ).2.numbers.map (fun n => n.id)).Nodup
      rw [hnum]
      exact hnd
    · intro n hn hdel
      rw [hnum]
      exact hn
  · have hnotdel : ∀ n ∈ db.numbers, n.status = NumberStatus.DELETED →
        ¬(n.id = r0.numberId) := by
      intro n hn hdel hc
      have hres := hwr r0 hmem hst n hn hc
      rw [hdel] at hres
      exact absurd hres (by decide)
    refine ⟨⟨?_, ?_, ?_⟩, ?_⟩
    · intro r' hr' hst' n' hn' hid'
      rw [hresv] at hr'
      obtain ⟨x, hx, hxe⟩ := List.mem_map.mp hr'
      by_cases hc : x.id = r0.id
      · rw [if_pos hc] at hxe
        rw [← hxe] at hst'
        simp at hst'
      · rw [if_neg hc] at hxe
        subst hxe
        have hxnid : ¬(x.numberId = r0.numberId) := by
          intro hcon
          exact hc (hwu x hx r0 hmem hst' hst hcon)
        rw [hnum] at hn'
        obtain ⟨m, hm, hme⟩ := List.mem_map.mp hn'
        by_cases hcm : m.id = r0.numberId
        · exfalso
          rw [if_pos hcm] at hme
          have hmid : n'.id = m.id := by rw [← hme]
          exact hxnid (by rw [← hcm, ← hmid]; exact hid'.symm)
        · rw [if_neg hcm] at hme
          subst hme
          exact hwr x hx hst' m hm hid'
    · intro r1 h1 r2 h2 hw1 hw2 hnid2
      rw [hresv] at h1 h2
      obtain ⟨x1, hx1, he1⟩ := List.mem_map.mp h1
      obtain ⟨x2, hx2, he2⟩ := List.mem_map.mp h2
      by_cases hc1 : x1.id = r0.id
      · rw [if_pos hc1] at he1
        rw [← he1] at hw1
        simp at hw1
      · rw [if_neg hc1] at he1
        subst he1
        by_cases hc2 : x2.id = r0.id
        · rw [if_pos hc2] at he2
          rw [← he2] at hw2
          simp at hw2
        · rw [if_neg hc2] at he2
          subst he2
          exact hwu x1 hx1 x2 hx2 hw1 hw2 hnid2
    · show ((completeReservationAtomic db resId code now
          ).2.numbers.map (fun n => n.id)).Nodup
      rw [hnum, List.map_map]
      have heqd : db.numbers.map ((fun n => n.id) ∘ (fun n =>
          if n.id = r0.numberId then
            { n with status := st, codeReceivedAt := some now,
                     usageCount := n.usageCount + 1 }
          else n)) = db.numbers.map (fun n => n.id) := by
        apply List.map_congr_left
        intro n _
        by_cases hc : n.id = r0.numberId
        · simp [Function.comp, hc]
        · simp [Function.comp, hc]
      rw [heqd]
      exact hnd
    · intro n hn hdel
      rw [hnum]
      refine List.mem_map.mpr ⟨n, hn, ?_⟩
      rw [if_neg (hnotdel n hn hdel)]

/-- `process_incoming_group_message` preserves the store invariant and every
DELETED number row. -/
theorem incoming_preserve (db : DB) (g sndr m : String) (now : Nat)
    (hinv : StoreInv db) :
    StoreInv (processIncomingGroupMessage db g sndr m now) ∧
    ∀ n ∈ db.numbers, n.status = NumberStatus.DELETED →
      n ∈ (processIncomingGroupMessage db g sndr m now).numbers := by
  obtain ⟨hwr, hwu, hnd⟩ := hinv
  rcases processIncoming_cases db g sndr m now _ rfl with
    ⟨hresv, hnum⟩ | ⟨rm, hmem, hst, ⟨hresv, hnum⟩ |
      ⟨cv, nObj, hnobj, hnid, hresv, hnum⟩⟩
  · refine ⟨⟨?_, ?_, ?_⟩, ?_⟩
    · intro r' hr' hst' n' hn' hid'
      rw [hresv] at hr'
      rw [hnum] at hn'
      exact hwr r' hr' hst' n' hn' hid'
    · intro r1 h1 r2 h2 hw1 hw2 hnid2
      rw [hresv] at h1 h2
      exact hwu r1 h1 r2 h2 hw1 hw2 hnid2
    · show ((processIncomingGroupMessage db g sndr m now
          ).numbers.map (fun n => n.id)).Nodup
      rw [hnum]
      exact hnd
    · intro n hn _
      rw [hnum]
      exact hn
  · refine ⟨⟨?_, ?_, ?_⟩, ?_⟩
    · intro r' hr' hst' n' hn' hid'
      rw [hresv] at hr'
      obtain ⟨x, hx, hxe⟩ := List.mem_map.mp hr'
      by_cases hc : x.id = rm.id
      · rw [if_pos hc] at hxe
        rw [← hxe] at hst'
        simp at hst'
      · rw [if_neg hc] at hxe
        subst hxe
        rw [hnum] at hn'
        exact hwr x hx hst' n' hn' hid'
    · intro r1 h1 r2 h2 hw1 hw2 hnid2
      rw [hresv] at h1 h2
      obtain ⟨x1, hx1, he1⟩ := List.mem_map.mp h1
      obtain ⟨x2, hx2, he2⟩ := List.mem_map.mp h2
      by_cases hc1 : x1.id = rm.id
      · rw [if_pos hc1] at he1
        rw [← he1] at hw1
        simp at hw1
      · rw [if_neg hc1] at he1
        subst he1
        by_cases hc2 : x2.id = rm.id
        · rw [if_pos hc2] at he2
          rw [← he2] at hw2
          simp at hw2
        · rw [if_neg hc2] at he2
          subst he2
          exact hwu x1 hx1 x2 hx2 hw1 hw2 hnid2
    · show ((processIncomingGroupMessage db g sndr m now
          ).numbers.map (fun n => n.id)).Nodup
      rw [hnum]
      exact hnd
    · intro n hn _
      rw [hnum]
      exact hn
  · have hnotdel : ∀ n ∈ db.numbers, n.status = NumberStatus.DELETED →
        ¬(n.id = nObj.id) := by
      intro n hn hdel hc
      have hres := hwr rm hmem hst n hn (by rw [hc, hnid])
      rw [hdel] at hres
      exact absurd hres (by decide)
    refine ⟨⟨?_, ?_, ?_⟩, ?_⟩
    · intro r' hr' hst' n' hn' hid'
      rw [hresv] at hr'
      obtain ⟨x, hx, hxe⟩ := List.mem_map.mp hr'
      by_cases hc : x.id = rm.id
      · rw [if_pos hc] at hxe
        rw [← hxe] at hst'
        simp at hst'
      · rw [if_neg hc] at hxe
        subst hxe
        have hxnid : ¬(x.numberId = rm.numberId) := by
          intro hcon
          exact hc (hwu x hx rm hmem hst' hst hcon)
        rw [hnum] at hn'
        obtain ⟨mr, hmr, hme⟩ := List.mem_map.mp hn'
        by_cases hcm : mr.id = nObj.id
        · exfalso
          rw [if_pos hcm] at hme
          have hmid : n'.id = mr.id := by rw [← hme]
          exact hxnid (by
            rw [← hnid, ← hcm, ← hmid]
            exact hid'.symm)
        · rw [if_neg hcm] at hme
          subst hme
          exact hwr x hx hst' mr hmr hid'
    · intro r1 h1 r2 h2 hw1 hw2 hnid2
      rw [hresv] at h1 h2
      obtain ⟨x1, hx1, he1⟩ := List.mem_map.mp h1
      obtain ⟨x2, hx2, he2⟩ := List.mem_map.mp h2
      by_cases hc1 : x1.id = rm.id
      · rw [if_pos hc1] at he1
        rw [← he1] at hw1
        simp at hw1
      · rw [if_neg hc1] at he1
        subst he1
        by_cases hc2 : x2.id = rm.id
        · rw [if_pos hc2] at he2
          rw [← he2] at hw2
          simp at hw2
        · rw [if_neg hc2] at he2
          subst he2
          exact hwu x1 hx1 x2 hx2 hw1 hw2 hnid2
    · show ((processIncomingGroupMessage db g sndr m now
          ).numbers.map (fun n => n.id)).Nodup
      rw [hnum, List.map_map]
      have heqd : db.numbers.map ((fun n => n.id) ∘ (fun x =>
          if x.id = nObj.id then
            { x with status := NumberStatus.USED,
                     codeReceivedAt := some now }
          else x)) = db.numbers.map (fun n => n.id) := by
        apply List.map_congr_left
        intro n _
        by_cases hc : n.id = nObj.id
        · simp [Function.comp, hc]
        · simp [Function.comp, hc]
      rw [heqd]
      exact hnd
    · intro n hn hdel
      rw [hnum]
      refine List.mem_map.mpr ⟨n, hn, ?_⟩
      rw [if_neg (hnotdel n hn hdel)]

/-- `reserve_number` preserves the store invariant and every DELETED number
row: only an AVAILABLE row can be selected. -/
theorem reserve_preserve (db : DB) (u s : Nat) (c : String) (t now : Nat)
    (hinv : StoreInv db) :
    StoreInv (reserveNumber db u s c t now).2 ∧
    ∀ n ∈ db.numbers, n.status = NumberStatus.DELETED →
      n ∈ (reserveNumber db u s c t now).2.numbers := by
  obtain ⟨hwr, hwu, hnd⟩ := hinv
  cases hsel : db.numbers.find? (reserveEligible db u s c) with
  | none =>
    have hkey : (reserveNumber db u s c t now).2 = db := by
      unfold reserveNumber
      rw [hsel]
    rw [hkey]
    exact ⟨⟨hwr, hwu, hnd⟩, fun n hn _ => hn⟩
  | some sel =>
    have hmem : sel ∈ db.numbers := List.mem_of_find?_eq_some hsel
    have helig : reserveEligible db u s c sel = true := List.find?_some hsel
    have hav : sel.status = NumberStatus.AVAILABLE := by
      unfold reserveEligible at helig
      simp only [Bool.and_eq_true, beq_iff_eq] at helig
      exact helig.1.2
    have hkey : (reserveNumber db u s c t now).2 = { db with
        numbers := db.numbers.map (fun n =>
          if n.id = sel.id then
            { n with status := .RESERVED, reservedByUserId := some u,
                     reservedAt := some now, expiresAt := some (now + t) }
          else n),
        reservations := db.reservations ++
          [{ id := db.nextReservationId, userId := u, serviceId := s,
             numberId := sel.id, status := .WAITING_CODE, createdAt := now,
             expiredAt := now + t, completedAt := none,
             codeValue := none }] } := by
      unfold reserveNumber
      rw [hsel]
    have hnotw : ∀ r ∈ db.reservations,
        r.status = ReservationStatus.WAITING_CODE →
        ¬(r.numberId = sel.id) := by
      intro r hr hw hcon
      have hres := hwr r hr hw sel hmem hcon.symm
      rw [hav] at hres
      exact absurd hres (by decide)
    rw [hkey]
    refine ⟨⟨?_, ?_, ?_⟩, ?_⟩
    · intro r' hr' hst' n' hn' hid'
      obtain ⟨mq, hmq, hme⟩ := List.mem_map.mp hn'
      rcases List.mem_append.mp hr' with hold | hnew
      · by_cases hc : mq.id = sel.id
        · exfalso
          rw [if_pos hc] at hme
          have hmid : n'.id = mq.id := by rw [← hme]
          exact hnotw r' hold hst' (by rw [← hid', hmid, hc])
        · rw [if_neg hc] at hme
          subst hme
          exact hwr r' hold hst' mq hmq hid'
      · rw [List.mem_singleton] at hnew
        by_cases hc : mq.id = sel.id
        · rw [if_pos hc] at hme
          rw [← hme]
        · exfalso
          rw [if_neg hc] at hme
          subst hme
          apply hc
          rw [hid', hnew]
    · intro r1 h1 r2 h2 hw1 hw2 hnid2
      rcases List.mem_append.mp h1 with h1o | h1n
      · rcases List.mem_append.mp h2 with h2o | h2n
        · exact hwu r1 h1o r2 h2o hw1 hw2 hnid2
        · exfalso
          rw [List.mem_singleton] at h2n
          apply hnotw r1 h1o hw1
          rw [hnid2, h2n]
      · rcases List.mem_append.mp h2 with h2o | h2n
        · exfalso
          rw [List.mem_singleton] at h1n
          apply hnotw r2 h2o hw2
          rw [← hnid2, h1n]
        · rw [List.mem_singleton] at h1n h2n
          rw [h1n, h2n]
    · show ((db.numbers.map (fun n =>
          if n.id = sel.id then
            { n with status := .RESERVED, reservedByUserId := some u,
                     reservedAt := some now, expiresAt := some (now + t) }
          else n)).map (fun n => n.id)).Nodup
      rw [List.map_map]
      have heqd : db.numbers.map ((fun n => n.id) ∘ (fun n =>
          if n.id = sel.id then
            { n with status := NumberStatus.RESERVED,
                     reservedByUserId := some u,
                     reservedAt := some now, expiresAt := some (now + t) }
          else n)) = db.numbers.map (fun n => n.id) := by
        apply List.map_congr_left
        intro n _
        by_cases hc : n.id = sel.id
        · simp [Function.comp, hc]
        · simp [Function.comp, hc]
      rw [heqd]
      exact hnd
    · intro n hn hdel
      refine List.mem_map.mpr ⟨n, hn, ?_⟩
      have hne : ¬(n.id = sel.id) := by
        intro hc
        have : n = sel := List.inj_on_of_nodup_map hnd hn hmem hc
        rw [this, hav] at hdel
        exact absurd hdel (by decide)
      rw [if_neg hne]

/-- Mapping an id-preserving function over the number table keeps the ids
(and hence their uniqueness). -/
theorem nodup_ids_of_map (l : List Number) (f : Number → Number)
    (hfid : ∀ n, (f n).id = n.id)
    (h : (l.map (fun n => n.id)).Nodup) :
    ((l.map f).map (fun n => n.id)).Nodup := by
  rw [List.map_map]
  have heq : l.map ((fun n => n.id) ∘ f) = l.map (fun n => n.id) :=
    List.map_congr_left (fun n _ => hfid n)
  rw [heq]
  exact h

/-- `change_number_handler` preserves the store invariant and every DELETED
number row: the released row is the WAITING_CODE reservation's (hence
RESERVED) and the replacement row is AVAILABLE or USED. -/
theorem changeNumber_preserve (db : DB) (rid now : Nat)
    (hinv : StoreInv db) :
    StoreInv (changeNumberHandler db rid now) ∧
    ∀ n ∈ db.numbers, n.status = NumberStatus.DELETED →
      n ∈ (changeNumberHandler db rid now).numbers := by
  obtain ⟨hwr, hwu, hnd⟩ := hinv
  unfold changeNumberHandler
  split
  · exact ⟨⟨hwr, hwu, hnd⟩, fun n hn _ => hn⟩
  · rename_i res hres
    have hmemres : res ∈ db.reservations := List.mem_of_find?_eq_some hres
    split
    · exact ⟨⟨hwr, hwu, hnd⟩, fun n hn _ => hn⟩
    · rename_i hstn
      have hstW : res.status = ReservationStatus.WAITING_CODE :=
        not_not.mp hstn
      split
      · exact ⟨⟨hwr, hwu, hnd⟩, fun n hn _ => hn⟩
      · rename_i cur hcur
        have hcurid : cur.id = res.numberId := by
          simpa using List.find?_some hcur
        have hnotdelcur : ∀ n ∈ db.numbers,
            n.status = NumberStatus.DELETED → ¬(n.id = cur.id) := by
          intro n hn hdel hc
          have hres2 := hwr res hmemres hstW n hn (by rw [hc, hcurid])
          rw [hdel] at hres2
          exact absurd hres2 (by decide)
        dsimp only
        split
        · -- no replacement found: the current row is restored to RESERVED
          refine ⟨⟨?_, ?_, ?_⟩, ?_⟩
          · intro r' hr' hst' n' hn' hid'
            obtain ⟨p, hp, hpe⟩ := List.mem_map.mp hn'
            obtain ⟨mq, hmq, hmqe⟩ := List.mem_map.mp hp
            have hpid : p.id = mq.id := by
              by_cases hc : mq.id = cur.id
              · rw [← hmqe, if_pos hc]
              · rw [← hmqe, if_neg hc]
            by_cases hc : p.id = cur.id
            · rw [if_pos hc] at hpe
              rw [← hpe]
            · rw [if_neg hc] at hpe
              rw [hpid] at hc
              rw [← hpe, ← hmqe, if_neg hc] at hid' ⊢
              exact hwr r' hr' hst' mq hmq hid'
          · exact hwu
          · refine nodup_ids_of_map _ _ ?_ (nodup_ids_of_map _ _ ?_ hnd)
            · intro n
              by_cases hc : n.id = cur.id <;> simp [hc]
            · intro n
              by_cases hc : n.id = cur.id <;> simp [hc]
          · intro n hn hdel
            have hne := hnotdelcur n hn hdel
            refine List.mem_map.mpr ⟨n, List.mem_map.mpr ⟨n, hn, ?_⟩, ?_⟩
            · rw [if_neg hne]
            · rw [if_neg hne]
        · -- replacement found
          rename_i newNumber hnew
          have hnewpred := List.find?_some hnew
          simp only [Bool.and_eq_true, Bool.or_eq_true, beq_iff_eq,
            decide_eq_true_eq, ne_eq] at hnewpred
          have hnewne : ¬(newNumber.id = cur.id) := hnewpred.2
          have hnewstat : newNumber.status = NumberStatus.AVAILABLE ∨
              newNumber.status = NumberStatus.USED := hnewpred.1.2
          have hnewdb : newNumber ∈ db.numbers := by
            obtain ⟨m0, hm0, hm0e⟩ :=
              List.mem_map.mp (List.mem_of_find?_eq_some hnew)
            by_cases hc : m0.id = cur.id
            · exfalso
              apply hnewne
              rw [← hm0e, if_pos hc, hc]
            · rw [← hm0e, if_neg hc]
              exact hm0
          have hnotwnew : ∀ r ∈ db.reservations,
              r.status = ReservationStatus.WAITING_CODE →
              ¬(r.numberId = newNumber.id) := by
            intro r hr hw hcon
            have hres2 := hwr r hr hw newNumber hnewdb hcon.symm
            rcases hnewstat with h | h <;> rw [h] at hres2 <;>
              exact absurd hres2 (by decide)
          refine ⟨⟨?_, ?_, ?_⟩, ?_⟩
          · intro r' hr' hst' n' hn' hid'
            obtain ⟨x, hx, hxe⟩ := List.mem_map.mp hr'
            obtain ⟨p, hp, hpe⟩ := List.mem_map.mp hn'
            obtain ⟨mq, hmq, hmqe⟩ := List.mem_map.mp hp
            have hpid : p.id = mq.id := by
              by_cases hc : mq.id = cur.id
              · rw [← hmqe, if_pos hc]
              · rw [← hmqe, if_neg hc]
            by_cases hcx : x.id = res.id
            · rw [if_pos hcx] at hxe
              by_cases hcp : p.id = newNumber.id
              · rw [if_pos hcp] at hpe
                rw [← hpe]
              · exfalso
                rw [if_neg hcp] at hpe
                apply hcp
                rw [hpe, hid', ← hxe]
            · rw [if_neg hcx] at hxe
              subst hxe
              have hxnotnew : ¬(x.numberId = newNumber.id) :=
                hnotwnew x hx hst'
              have hxnotcur : ¬(x.numberId = cur.id) := by
                intro hcon
                exact hcx (hwu x hx res hmemres hst' hstW
                  (by rw [hcon, hcurid]))
              by_cases hcp : p.id = newNumber.id
              · exfalso
                rw [if_pos hcp] at hpe
                apply hxnotnew
                rw [← hid', ← hpe, hcp]
              · rw [if_neg hcp] at hpe
                rw [← hpe, hpid] at hid'
                have hcm : ¬(mq.id = cur.id) := fun hcon =>
                  hxnotcur (by rw [← hid', hcon])
                have hpm : p = mq := by rw [← hmqe, if_neg hcm]
                rw [← hpe, hpm]
                exact hwr x hx hst' mq hmq hid'
          · intro r1 h1 r2 h2 hw1 hw2 hnid2
            obtain ⟨x1, hx1, he1⟩ := List.mem_map.mp h1
            obtain ⟨x2, hx2, he2⟩ := List.mem_map.mp h2
            by_cases hc1 : x1.id = res.id
            · by_cases hc2 : x2.id = res.id
              · rw [if_pos hc1] at he1
                rw [if_pos hc2] at he2
                rw [← he1, ← he2, hc1, hc2]
              · exfalso
                rw [if_pos hc1] at he1
                rw [if_neg hc2] at he2
                subst he2
                have hw2o : x2.status = ReservationStatus.WAITING_CODE := hw2
                apply hnotwnew x2 hx2 hw2o
                rw [← hnid2, ← he1]
            · by_cases hc2 : x2.id = res.id
              · exfalso
                rw [if_neg hc1] at he1
                rw [if_pos hc2] at he2
                subst he1
                apply hnotwnew x1 hx1 hw1
                rw [hnid2, ← he2]
              · rw [if_neg hc1] at he1
                rw [if_neg hc2] at he2
                subst he1
                subst he2
                exact hwu x1 hx1 x2 hx2 hw1 hw2 hnid2
          · refine nodup_ids_of_map _ _ ?_ (nodup_ids_of_map _ _ ?_ hnd)
            · intro n
              by_cases hc : n.id = newNumber.id <;> simp [hc]
            · intro n
              by_cases hc : n.id = cur.id <;> simp [hc]
          · intro n hn hdel
            have hne := hnotdelcur n hn hdel
            have hnenew : ¬(n.id = newNumber.id) := by
              intro hc
              have : n = newNumber :=
                List.inj_on_of_nodup_map hnd hn hnewdb hc
              rcases hnewstat with h | h <;> rw [this, h] at hdel <;>
                exact absurd hdel (by decide)
            refine List.mem_map.mpr ⟨n, List.mem_map.mpr ⟨n, hn, ?_⟩, ?_⟩
            · rw [if_neg hne]
            · rw [if_neg hnenew]

/-- A single operation preserves the store invariant and every DELETED
number row. -/
theorem stepOp_preserve (db : DB) (op : CoreOp) (hinv : StoreInv db) :
    StoreInv (stepOp db op) ∧
    ∀ n ∈ db.numbers, n.status = NumberStatus.DELETED →
      n ∈ (stepOp db op).numbers := by
  cases op with
  | reserve u s c t n => exact reserve_preserve db u s c t n hinv
  | complete rid code n => exact completeAtomic_preserve db rid code n hinv
  | incoming g sndr m n => exact incoming_preserve db g sndr m n hinv
  | expirySweep n => exact checkExpired_preserve db n hinv
  | cleanupSweep n => exact cleanup_preserve db n hinv
  | changeNumber rid n => exact changeNumber_preserve db rid n hinv

/-- DELETED permanence over any sequence of operations: a DELETED number row
of an invariant-satisfying store survives, unchanged, every run. -/
theorem runOps_deleted_permanent (ops : List CoreOp) :
    ∀ (db : DB), StoreInv db → ∀ n ∈ db.numbers,
      n.status = NumberStatus.DELETED → n ∈ (runOps db ops).numbers := by
  induction ops with
  | nil =>
    intro db _ n hn _
    exact hn
  | cons op ops ih =>
    intro db hinv n hn hdel
    have h := stepOp_preserve db op hinv
    exact ih (stepOp db op) h.1 n (h.2 n hn hdel) hdel

/-- A DELETED number, released by a sweep with `codeReceivedAt` null, left
behind an EXPIRED reservation: the store `change_country_handler` can
resurrect. -/
def wNumDel : Number :=
  { id := 1, phoneNumber := "+201112223344", serviceId := 1,
    countryCode := "+20", status := .DELETED, priceOverride := none,
    reservedByUserId := none, reservedAt := none, expiresAt := none,
    codeReceivedAt := none, usageCount := 0 }

def wResExpC : Reservation :=
  { id := 1, userId := 1, serviceId := 1, numberId := 1,
    status := .EXPIRED, createdAt := 1, expiredAt := 5,
    completedAt := none, codeValue := none }

def wDbResurrect : DB :=
  { users := [wUser1], services := [wService], numbers := [wNumDel],
    reservations := [wResExpC], transactions := [], providerMessages := [],
    blockedMessages := [], serviceGroups := [wGroup] }

/-- C4 (amended): (i) after the billing completion path the Number is DELETED
exactly when the count of distinct users with COMPLETED reservations against
it - taken on the post-update reservation table - reaches three; (ii) the
correlator's in-line completion path never retires: a DELETED row in its
output was already DELETED in its input; (iii) once a Number row is DELETED
it survives unchanged any sequence of reserve / billing-completion /
incoming-message / expiry-sweep / cleanup-sweep / change-number operations on
a store satisfying the invariants (WAITING_CODE reservations hold RESERVED
numbers, no two WAITING_CODE reservations share a number, number ids are
unique) - invariants all six operations preserve.  `change_country_handler` is excluded:
lacking a status guard, it can resurrect a sweep-DELETED number. -/
theorem claimC4_retirement_permanence :
    (∀ (db : DB) (resId : Nat) (code : String) (now : Nat)
        (r : Reservation) (u : User) (s : Service) (n : Number),
      db.reservations.find? (fun x => x.id == resId) = some r →
      r.status = .WAITING_CODE →
      db.users.find? (fun x => x.id == r.userId) = some u →
      db.services.find? (fun x => x.id == r.serviceId) = some s →
      db.numbers.find? (fun x => x.id == r.numberId) = some n →
      priceOf n s ≤ u.balance →
      ∃ n' ∈ (completeReservationAtomic db resId code now).2.numbers,
        n'.id = n.id ∧
        (n'.status = NumberStatus.DELETED ↔
          3 ≤ distinctCompletedUsers
            (completeReservationAtomic db resId code now).2.reservations
            n.id)) ∧
    (∀ (db : DB) (g sndr m : String) (now : Nat),
      ∀ n' ∈ (processIncomingGroupMessage db g sndr m now).numbers,
        n'.status = NumberStatus.DELETED →
        ∃ n ∈ db.numbers, n.id = n'.id ∧
          n.status = NumberStatus.DELETED) ∧
    (∀ (db : DB) (ops : List CoreOp), StoreInv db →
      ∀ n ∈ db.numbers, n.status = NumberStatus.DELETED →
        n ∈ (runOps db ops).numbers) := by
  refine ⟨?_, ?_, ?_⟩
  · intro db resId code now r u s n hr hst hu hs hn hb
    have key : completeReservationAtomic db resId code now =
        (true,
         { db with
           users := db.users.map (fun x =>
             if x.id = u.id then { x with balance := x.balance - priceOf n s }
             else x),
           reservations := db.reservations.map (fun x =>
             if x.id = r.id then
               { x with status := .COMPLETED, codeValue := some code,
                        completedAt := some now }
             else x),
           numbers := db.numbers.map (fun x =>
             if x.id = n.id then
               { x with
                 status := if 3 ≤ distinctCompletedUsers
                     (db.reservations.map (fun y =>
                       if y.id = r.id then
                         { y with status := .COMPLETED,
                                  codeValue := some code,
                                  completedAt := some now }
                       else y)) n.id then NumberStatus.DELETED
                   else NumberStatus.USED,
                 codeReceivedAt := some now, usageCount := x.usageCount + 1 }
             else x),
           transactions := db.transactions ++
             [{ id := db.nextTransactionId, userId := u.id,
                type := .PURCHASE, amount := priceOf n s,
                reason := s.name ++ " " ++ n.phoneNumber,
                createdAt := now }] })
        := by
      unfold completeReservationAtomic
      rw [hr]
      simp only [hst, hu, hs, hn, ne_eq, not_true_eq_false, if_false,
        if_neg (not_lt.mpr hb)]
    have hmemn : n ∈ db.numbers := List.mem_of_find?_eq_some hn
    rw [key]
    refine ⟨_, List.mem_map.mpr ⟨n, hmemn, rfl⟩, by simp, ?_⟩
    by_cases hcnt : 3 ≤ distinctCompletedUsers
        (db.reservations.map (fun y =>
          if y.id = r.id then
            { y with status := ReservationStatus.COMPLETED,
                     codeValue := some code, completedAt := some now }
          else y)) n.id
    · simp [hcnt]
    · simp [hcnt]
  · intro db g sndr m now n' hn' hdel
    rcases processIncoming_cases db g sndr m now _ rfl with
      ⟨_, hnum⟩ | ⟨rm, _, _, ⟨_, hnum⟩ | ⟨cv, nObj, _, _, _, hnum⟩⟩
    · rw [hnum] at hn'
      exact ⟨n', hn', rfl, hdel⟩
    · rw [hnum] at hn'
      exact ⟨n', hn', rfl, hdel⟩
    · rw [hnum] at hn'
      obtain ⟨mq, hmq, hme⟩ := List.mem_map.mp hn'
      by_cases hc : mq.id = nObj.id
      · exfalso
        rw [if_pos hc] at hme
        rw [← hme] at hdel
        simp at hdel
      · rw [if_neg hc] at hme
        subst hme
        exact ⟨mq, hmq, rfl, hdel⟩
  · intro db ops hinv n hn hdel
    exact runOps_deleted_permanent ops db hinv n hn hdel

/-- Witness for C4 at concrete inputs: the billing path on `wDbBilling`
(where user 1 becomes the third distinct completing user, so the
characterisation yields DELETED), and permanence of the DELETED row of
`wDbResurrect` under a reserve, both sweeps and a billing completion. -/
theorem claimC4_witness :
    (StoreInv wDbResurrect ∧ wNumDel ∈ wDbResurrect.numbers ∧
      wNumDel.status = NumberStatus.DELETED ∧
      wNumDel ∈ (runOps wDbResurrect
        [CoreOp.expirySweep 6, CoreOp.cleanupSweep 7,
         CoreOp.reserve 1 1 "+20" 15 8,
         CoreOp.complete 1 "482913" 9]).numbers) ∧
    (∃ n' ∈ (completeReservationAtomic wDbBilling 13 "482913" 10).2.numbers,
      n'.id = wNumOverride.id ∧
      (n'.status = NumberStatus.DELETED ↔
        3 ≤ distinctCompletedUsers
          (completeReservationAtomic wDbBilling 13 "482913" 10
            ).2.reservations wNumOverride.id)) :=
  ⟨⟨by simp only [StoreInv, waitingReserved, waitingUnique,
        nodupNumberIds]; decide, by decide, by decide,
    claimC4_retirement_permanence.2.2 wDbResurrect
      [CoreOp.expirySweep 6, CoreOp.cleanupSweep 7,
       CoreOp.reserve 1 1 "+20" 15 8, CoreOp.complete 1 "482913" 9]
      (by simp only [StoreInv, waitingReserved, waitingUnique,
        nodupNumberIds]; decide) wNumDel (by decide) (by decide)⟩,
   claimC4_retirement_permanence.1 wDbBilling 13 "482913" 10 wResCur wUser1
     wService wNumOverride (by decide) (by decide) (by decide) (by decide)
     (by decide) (by decide)⟩

/-- Counterexample to C4 as claimed: (a) the correlator's in-line completion
on `wDbInline` makes user 1 the THIRD distinct completed user of number 1,
yet the number ends USED, not DELETED (the in-line path applies no
retirement rule); (b) `change_country_handler`, outside the claimed "no
subsequent operation", releases the DELETED number of `wDbResurrect` back to
AVAILABLE. -/
theorem claimC4_counterexample :
    distinctCompletedUsers
      (processIncomingGroupMessage wDbInline "g" "s" wDupMessage 10
        ).reservations 1 = 3 ∧
    (processIncomingGroupMessage wDbInline "g" "s" wDupMessage 10
      ).numbers.map (fun n => n.status) = [NumberStatus.USED] ∧
    NumberStatus.USED ≠ NumberStatus.DELETED ∧
    wNumDel.status = NumberStatus.DELETED ∧
    (changeCountryHandler wDbResurrect 1).numbers.map (fun n => n.status) =
      [NumberStatus.AVAILABLE] := by
  decide
end PhoneBot
